import Mathlib

/-!
# LCD driver (`driver.c`): symbol buffer, pixel addressing and rasterizer

A shallow embedding of `src/driver.c`.

* C integers are `Nat`/`Int`; every conversion to `uint8_t`/`uint16_t` is an explicit
  reduction modulo `256`/`65536` (`u8`, `u16`).
* The header `driver.h` is not part of the sources: its constants (`MAX_BUFFER_SIZE`, the
  opcodes, the two type tags) are the fields of the parameter `Header`.
* The driver state `LCD` carries, besides the C fields `type`, `buffer`, `buffer_pos`, two
  ghost logs: `spi`, the list of blocks handed to `spi_send_buffer` (oldest first), and
  `pixels`, the list of argument triples of the `lcd_set_pixel` calls (oldest first).
* Loops run on fuel and return `none` when the fuel is exhausted.
* The definitions with suffix `_r` repeat the buffer and pixel operations with their C
  return values and the outcome of each transport write made explicit.
* `bresenham_ref` and `midpoint_ref` are the reference algorithms in signed integers, written
  from the words of the specification, for comparison with the embedded code.
-/

namespace Pinokia

/-! ## Machine integers -/

/-- Conversion of a C `int` value to `uint8_t`. -/
def u8 (v : Int) : Nat := (v % 256).toNat

/-- Conversion of a C `int` value to `uint16_t`. -/
def u16 (v : Int) : Nat := (v % 65536).toNat

/-! ## Header constants and driver state -/

/-- Constants defined in `driver.h`, which is absent from the sources; they are parameters of
the model. -/
structure Header where
  MAX_BUFFER_SIZE : Nat
  TYPE_EPSON : Int
  TYPE_PHILIPS : Int
  PASET : Int
  CASET : Int
  RAMWR : Int
  ENDPAGE : Int
  ENDCOL : Int
  PASETP : Int
  CASETP : Int
  RAMWRP : Int

/-- The `LCD` structure: the controller type, the symbol buffer (a memory of 16-bit cells
indexed from 0), its fill position, and the two ghost logs. -/
structure LCD where
  type : Int
  buffer : Nat → Nat
  buffer_pos : Nat
  spi : List (List Nat)
  pixels : List (Nat × Nat × Nat)

/-- Modelled from the spec: the transport write `spi_send_buffer(fd, count, buffer)` of the
absent `spi.c`, "a single blocking write of N tagged symbols": it appends the block
`buffer[0..count-1]` to the log of transport writes. -/
def spi_send_buffer (lcd : LCD) (count : Nat) (buffer : Nat → Nat) : LCD :=
  { lcd with spi := lcd.spi ++ [(List.range count).map buffer] }

/-! ## Symbol buffer (`driver.c` lines 45-63) -/

/-- `flush`: hand the first `buffer_pos` cells to the transport, then reset the position. -/
def flush (lcd : LCD) : LCD :=
  let lcd := spi_send_buffer lcd lcd.buffer_pos lcd.buffer
  { lcd with buffer_pos := 0 }

/-- The first statement of `send`: `lcd->buffer[lcd->buffer_pos++] = word`. -/
def send_store (lcd : LCD) (word : Nat) : LCD :=
  { lcd with
    buffer := fun i => if i = lcd.buffer_pos then word % 65536 else lcd.buffer i
    buffer_pos := lcd.buffer_pos + 1 }

/-- `send`: store the word, then flush when the position equals `MAX_BUFFER_SIZE`. -/
def send (cfg : Header) (lcd : LCD) (word : Nat) : LCD :=
  let lcd := send_store lcd word
  if lcd.buffer_pos = cfg.MAX_BUFFER_SIZE then flush lcd else lcd

/-- `send_cmd`: the `uint8_t` argument is widened to the 16-bit word unchanged. -/
def send_cmd (cfg : Header) (lcd : LCD) (cmd : Int) : LCD :=
  send cfg lcd (u8 cmd)

/-- `send_data`: `(uint16_t) data | 0x100`. -/
def send_data (cfg : Header) (lcd : LCD) (data : Int) : LCD :=
  send cfg lcd (u8 data ||| 0x100)

/-- One call of the symbol interface. -/
inductive Call where
  | cmd (b : Int)
  | data (b : Int)
  deriving DecidableEq, Repr

/-- The 16-bit word a call passes to `send`. -/
def Call.word : Call → Nat
  | .cmd b => u8 b
  | .data b => u8 b ||| 0x100

/-- Perform one call on the driver state. -/
def Call.run (cfg : Header) (lcd : LCD) : Call → LCD
  | .cmd b => send_cmd cfg lcd b
  | .data b => send_data cfg lcd b

/-- Perform a sequence of calls, first to last. -/
def runCalls (cfg : Header) (lcd : LCD) (calls : List Call) : LCD :=
  calls.foldl (Call.run cfg) lcd

/-- Any operation of the buffer interface, `send` with a raw word included. -/
inductive Op where
  | send (w : Nat)
  | send_cmd (b : Int)
  | send_data (b : Int)
  | flush
  deriving DecidableEq, Repr

/-- Perform one buffer operation. -/
def Op.run (cfg : Header) (lcd : LCD) : Op → LCD
  | .send w => Pinokia.send cfg lcd w
  | .send_cmd b => Pinokia.send_cmd cfg lcd b
  | .send_data b => Pinokia.send_data cfg lcd b
  | .flush => Pinokia.flush lcd

/-- Perform a sequence of buffer operations, first to last. -/
def runOps (cfg : Header) (lcd : LCD) (ops : List Op) : LCD :=
  ops.foldl (Op.run cfg) lcd

/-- The symbols handed to the transport so far followed by those still queued. -/
def stream (lcd : LCD) : List Nat :=
  lcd.spi.flatten ++ (List.range lcd.buffer_pos).map lcd.buffer

/-- A header for evaluating the model on concrete inputs: a 64-symbol buffer, distinct type
tags and distinct opcodes. -/
def sampleHeader : Header :=
  { MAX_BUFFER_SIZE := 64, TYPE_EPSON := 0, TYPE_PHILIPS := 1,
    PASET := 0x75, CASET := 0x15, RAMWR := 0x5C, ENDPAGE := 131, ENDCOL := 131,
    PASETP := 0x2B, CASETP := 0x2A, RAMWRP := 0x2C }

/-- The sample header with a two-symbol buffer, so that short call sequences cross the
capacity. -/
def smallHeader : Header :=
  { sampleHeader with MAX_BUFFER_SIZE := 2 }

/-- A freshly zeroed driver of the given type (`bzero` in `lcd_init`), with empty logs. -/
def emptyLCD (type : Int) : LCD :=
  { type := type, buffer := fun _ => 0, buffer_pos := 0, spi := [], pixels := [] }

/-! ## Addressing and pixel plotting (`driver.c` lines 65-130) -/

/-- The loop of `lcd_clear`: `n` remaining iterations, each sending the three packed bytes. -/
def lcd_clear_loop (cfg : Header) (color : Int) : Nat → LCD → LCD
  | 0, lcd => lcd
  | n + 1, lcd =>
    let lcd := send_data cfg lcd (Int.land (color >>> 4) 0xFF)
    let lcd := send_data cfg lcd (Int.lor (Int.land color 0x0F <<< 4) (color >>> 8))
    let lcd := send_data cfg lcd (Int.land color 0x0FF)
    lcd_clear_loop cfg color n lcd

/-- `lcd_clear(lcd, color)`, `color` a C `int`. -/
def lcd_clear (cfg : Header) (lcd : LCD) (color : Int) : LCD :=
  let paset : Nat := if lcd.type = cfg.TYPE_EPSON then u8 cfg.PASET else u8 cfg.PASETP
  let caset : Nat := if lcd.type = cfg.TYPE_EPSON then u8 cfg.CASET else u8 cfg.CASETP
  let ramwr : Nat := if lcd.type = cfg.TYPE_EPSON then u8 cfg.RAMWR else u8 cfg.RAMWRP
  let lcd := send_cmd cfg lcd paset
  let lcd := send_data cfg lcd 0
  let lcd := send_data cfg lcd 132
  let lcd := send_cmd cfg lcd caset
  let lcd := send_data cfg lcd 0
  let lcd := send_data cfg lcd 132
  let lcd := flush lcd
  let lcd := send_cmd cfg lcd ramwr
  let lcd := flush lcd
  let lcd := lcd_clear_loop cfg color ((132 * 132) / 2) lcd
  flush lcd

/-- The Epson branch of `lcd_set_pixel` (lines 101-113); `x`, `y`, `color` already converted. -/
def set_pixel_epson (cfg : Header) (lcd : LCD) (x y color : Nat) : LCD :=
  let lcd := send_cmd cfg lcd cfg.PASET
  let lcd := send_data cfg lcd x
  let lcd := send_data cfg lcd cfg.ENDPAGE
  let lcd := send_cmd cfg lcd cfg.CASET
  let lcd := send_data cfg lcd y
  let lcd := send_data cfg lcd cfg.ENDCOL
  let lcd := send_cmd cfg lcd cfg.RAMWR
  let lcd := send_data cfg lcd (((color >>> 4) &&& 0x00ff : Nat) : Int)
  let lcd := send_data cfg lcd (((((color &&& 0x0f) <<< 4) ||| (color >>> 8)) : Nat) : Int)
  send_data cfg lcd ((color &&& 0x0ff : Nat) : Int)

/-- The Philips branch of `lcd_set_pixel` (lines 115-126); the two `(uint8_t)` casts are the
inner `u8`. -/
def set_pixel_philips (cfg : Header) (lcd : LCD) (x y color : Nat) : LCD :=
  let lcd := send_cmd cfg lcd cfg.PASETP
  let lcd := send_data cfg lcd x
  let lcd := send_data cfg lcd x
  let lcd := send_cmd cfg lcd cfg.CASETP
  let lcd := send_data cfg lcd y
  let lcd := send_data cfg lcd y
  let lcd := send_cmd cfg lcd cfg.RAMWRP
  let lcd := send_data cfg lcd (u8 (((color >>> 4) &&& 0x00FF : Nat) : Int))
  send_data cfg lcd (u8 ((((color &&& 0x0F) <<< 4) ||| 0x00 : Nat) : Int))

/-- `lcd_set_pixel(lcd, x, y, color)`: the arguments are converted to `uint8_t`, `uint8_t`,
`uint16_t`; the call is recorded in the ghost log `pixels`; the branch of the controller type
queues its symbols (none when the type is neither tag); then `flush`. -/
def lcd_set_pixel (cfg : Header) (lcd : LCD) (x y color : Int) : LCD :=
  let x := u8 x
  let y := u8 y
  let color := u16 color
  let lcd := { lcd with pixels := lcd.pixels ++ [(x, y, color)] }
  let lcd :=
    if lcd.type = cfg.TYPE_EPSON then set_pixel_epson cfg lcd x y color
    else if lcd.type = cfg.TYPE_PHILIPS then set_pixel_philips cfg lcd x y color
    else lcd
  flush lcd

/-! ## Rasterizer (`driver.c` lines 213-323) -/

/-- The `while (x < y)` loop of `lcd_draw_circle`; all five loop variables are `uint8_t`. -/
def lcd_draw_circle_loop (cfg : Header) (x0 y0 color : Nat) :
    Nat → LCD → Nat → Nat → Nat → Nat → Nat → Option LCD
  | 0, _, _, _, _, _, _ => none
  | fuel + 1, lcd, f, ddF_x, ddF_y, x, y =>
    if x < y then
      let y' : Nat := if (0 : Int) ≤ (f : Int) then u8 ((y : Int) - 1) else y
      let ddF_y' : Nat := if (0 : Int) ≤ (f : Int) then u8 ((ddF_y : Int) + 2) else ddF_y
      let f' : Nat := if (0 : Int) ≤ (f : Int) then u8 ((f : Int) + ddF_y') else f
      let x' : Nat := u8 ((x : Int) + 1)
      let ddF_x' : Nat := u8 ((ddF_x : Int) + 2)
      let f'' : Nat := u8 ((f' : Int) + ddF_x')
      let lcd := lcd_set_pixel cfg lcd ((x0 : Int) + x') ((y0 : Int) + y') color
      let lcd := lcd_set_pixel cfg lcd ((x0 : Int) - x') ((y0 : Int) + y') color
      let lcd := lcd_set_pixel cfg lcd ((x0 : Int) + x') ((y0 : Int) - y') color
      let lcd := lcd_set_pixel cfg lcd ((x0 : Int) - x') ((y0 : Int) - y') color
      let lcd := lcd_set_pixel cfg lcd ((x0 : Int) + y') ((y0 : Int) + x') color
      let lcd := lcd_set_pixel cfg lcd ((x0 : Int) - y') ((y0 : Int) + x') color
      let lcd := lcd_set_pixel cfg lcd ((x0 : Int) + y') ((y0 : Int) - x') color
      let lcd := lcd_set_pixel cfg lcd ((x0 : Int) - y') ((y0 : Int) - x') color
      lcd_draw_circle_loop cfg x0 y0 color fuel lcd f'' ddF_x' ddF_y' x' y'
    else some lcd

/-- `lcd_draw_circle(lcd, x0, y0, radius, color)`. -/
def lcd_draw_circle (cfg : Header) (lcd : LCD) (x0 y0 radius color : Int) : Option LCD :=
  let x0 := u8 x0
  let y0 := u8 y0
  let radius := u8 radius
  let color := u16 color
  let f : Nat := u8 (1 - (radius : Int))
  let ddF_x : Nat := u8 1
  let ddF_y : Nat := u8 (-2 * (radius : Int))
  let x : Nat := u8 0
  let y : Nat := radius
  let lcd := lcd_set_pixel cfg lcd x0 ((y0 : Int) + radius) color
  let lcd := lcd_set_pixel cfg lcd x0 ((y0 : Int) - radius) color
  let lcd := lcd_set_pixel cfg lcd ((x0 : Int) + radius) y0 color
  let lcd := lcd_set_pixel cfg lcd ((x0 : Int) - radius) y0 color
  lcd_draw_circle_loop cfg x0 y0 color 256 lcd f ddF_x ddF_y x y

/-- The `for (x = x0; x != x1; x += xstep)` loop of `lcd_draw_br_line`. -/
def lcd_draw_br_line_loop (cfg : Header) (steep : Bool)
    (x1 xstep ystep TwoDy TwoDyTwoDx color : Nat) :
    Nat → LCD → Nat → Nat → Nat → Option LCD
  | 0, _, _, _, _ => none
  | fuel + 1, lcd, x, y, E =>
    if x ≠ x1 then
      let xDraw := if steep then y else x
      let yDraw := if steep then x else y
      let lcd := lcd_set_pixel cfg lcd xDraw yDraw color
      let E' : Nat := if (E : Int) > 0 then u8 ((E : Int) + TwoDyTwoDx) else u8 ((E : Int) + TwoDy)
      let y' : Nat := if (E : Int) > 0 then u8 ((y : Int) + ystep) else y
      lcd_draw_br_line_loop cfg steep x1 xstep ystep TwoDy TwoDyTwoDx color fuel lcd
        (u8 ((x : Int) + xstep)) y' E'
    else some lcd

/-- `lcd_draw_br_line(lcd, x0, y0, x1, y1, color)`; every local is `uint8_t`, and `abs` is
applied to the `uint8_t` values promoted to `int`. -/
def lcd_draw_br_line (cfg : Header) (lcd : LCD) (x0 y0 x1 y1 color : Int) : Option LCD :=
  let x0 := u8 x0
  let y0 := u8 y0
  let x1 := u8 x1
  let y1 := u8 y1
  let color := u16 color
  let Dx : Nat := u8 ((x1 : Int) - x0)
  let Dy : Nat := u8 ((y1 : Int) - y0)
  let steep : Bool := decide (Int.natAbs (Dy : Int) ≥ Int.natAbs (Dx : Int))
  let sx0 : Nat := if steep then y0 else x0
  let sy0 : Nat := if steep then x0 else y0
  let sx1 : Nat := if steep then y1 else x1
  let sy1 : Nat := if steep then x1 else y1
  let Dx : Nat := if steep then u8 ((sx1 : Int) - sx0) else Dx
  let Dy : Nat := if steep then u8 ((sy1 : Int) - sy0) else Dy
  let xstep : Nat := if (Dx : Int) < 0 then u8 (-1) else u8 1
  let Dx : Nat := if (Dx : Int) < 0 then u8 (-(Dx : Int)) else Dx
  let ystep : Nat := if (Dy : Int) < 0 then u8 (-1) else u8 1
  let Dy : Nat := if (Dy : Int) < 0 then u8 (-(Dy : Int)) else Dy
  let TwoDy : Nat := u8 (2 * (Dy : Int))
  let TwoDyTwoDx : Nat := u8 ((TwoDy : Int) - 2 * (Dx : Int))
  let E : Nat := u8 ((TwoDy : Int) - (Dx : Int))
  let y : Nat := sy0
  lcd_draw_br_line_loop cfg steep sx1 xstep ystep TwoDy TwoDyTwoDx color 256 lcd sx0 y E

/-- The three words queued by one iteration of the loop of `lcd_clear` (lines 91-93). -/
def clear_pattern (color : Int) : List Nat :=
  [u8 (Int.land (color >>> 4) 0xFF) + 256,
    u8 (Int.lor (Int.land color 0x0F <<< 4) (color >>> 8)) + 256,
    u8 (Int.land color 0x0FF) + 256]

/-- The arguments of the `lcd_set_pixel` calls made since the state `before`. -/
def newPixels (before after : LCD) : List (Nat × Nat × Nat) :=
  after.pixels.drop before.pixels.length

/-- The coordinates `(x, y)` passed to `lcd_set_pixel` by an operation that started in
`before` and produced `after` (none when it did not return). -/
def plotted (before : LCD) (after : Option LCD) : List (Nat × Nat) :=
  match after with
  | none => []
  | some l => (newPixels before l).map (fun p => (p.1, p.2.1))

/-- Plot a list of points with one colour, first to last. -/
def plotAll (cfg : Header) (color : Nat) (lcd : LCD) (ps : List (Nat × Nat)) : LCD :=
  ps.foldl (fun l p => lcd_set_pixel cfg l p.1 p.2 color) lcd

/-- The control flow of `lcd_draw_br_line_loop` without the driver state: the points it
passes to `lcd_set_pixel`, in order. -/
def br_line_loop_points (steep : Bool) (x1 xstep ystep TwoDy TwoDyTwoDx : Nat) :
    Nat → Nat → Nat → Nat → Option (List (Nat × Nat))
  | 0, _, _, _ => none
  | fuel + 1, x, y, E =>
    if x ≠ x1 then
      let xDraw := if steep then y else x
      let yDraw := if steep then x else y
      let E' : Nat := if (E : Int) > 0 then u8 ((E : Int) + TwoDyTwoDx) else u8 ((E : Int) + TwoDy)
      let y' : Nat := if (E : Int) > 0 then u8 ((y : Int) + ystep) else y
      (br_line_loop_points steep x1 xstep ystep TwoDy TwoDyTwoDx fuel
        (u8 ((x : Int) + xstep)) y' E').map (fun ps => (xDraw, yDraw) :: ps)
    else some []

/-- The control flow of `lcd_draw_br_line` without the driver state. -/
def br_line_points (x0 y0 x1 y1 : Int) : Option (List (Nat × Nat)) :=
  let x0 := u8 x0
  let y0 := u8 y0
  let x1 := u8 x1
  let y1 := u8 y1
  let Dx : Nat := u8 ((x1 : Int) - x0)
  let Dy : Nat := u8 ((y1 : Int) - y0)
  let steep : Bool := decide (Int.natAbs (Dy : Int) ≥ Int.natAbs (Dx : Int))
  let sx0 : Nat := if steep then y0 else x0
  let sy0 : Nat := if steep then x0 else y0
  let sx1 : Nat := if steep then y1 else x1
  let sy1 : Nat := if steep then x1 else y1
  let Dx : Nat := if steep then u8 ((sx1 : Int) - sx0) else Dx
  let Dy : Nat := if steep then u8 ((sy1 : Int) - sy0) else Dy
  let xstep : Nat := if (Dx : Int) < 0 then u8 (-1) else u8 1
  let Dx : Nat := if (Dx : Int) < 0 then u8 (-(Dx : Int)) else Dx
  let ystep : Nat := if (Dy : Int) < 0 then u8 (-1) else u8 1
  let Dy : Nat := if (Dy : Int) < 0 then u8 (-(Dy : Int)) else Dy
  let TwoDy : Nat := u8 (2 * (Dy : Int))
  let TwoDyTwoDx : Nat := u8 ((TwoDy : Int) - 2 * (Dx : Int))
  let E : Nat := u8 ((TwoDy : Int) - (Dx : Int))
  br_line_loop_points steep sx1 xstep ystep TwoDy TwoDyTwoDx 256 sx0 sy0 E


/-! ## Rectangles (`driver.c` lines 302-323) -/

/-- The row loop of `lcd_fill_rectangle`: `for (i = y0+1; i < y0+height; i++)` with a
`uint8_t` counter and the guard evaluated in `int`. -/
def lcd_fill_rectangle_loop (cfg : Header) (x0 y0 width height color : Nat) :
    Nat → LCD → Nat → Option LCD
  | 0, _, _ => none
  | fuel + 1, lcd, i =>
    if (i : Int) < (y0 : Int) + (height : Int) then
      match lcd_draw_br_line cfg lcd x0 i ((x0 : Int) + width) i color with
      | none => none
      | some lcd => lcd_fill_rectangle_loop cfg x0 y0 width height color fuel lcd
          (u8 ((i : Int) + 1))
    else some lcd

/-- `lcd_fill_rectangle(lcd, x0, y0, width, height, color)`. -/
def lcd_fill_rectangle (cfg : Header) (lcd : LCD) (x0 y0 width height color : Int) :
    Option LCD :=
  let x0 := u8 x0
  let y0 := u8 y0
  let width := u8 width
  let height := u8 height
  let color := u16 color
  lcd_fill_rectangle_loop cfg x0 y0 width height color 256 lcd (u8 ((y0 : Int) + 1))

/-- The row loop of `lcd_draw_rectangle` ("Now the sides"). -/
def lcd_draw_rectangle_loop (cfg : Header) (x0 y0 width height color : Nat) :
    Nat → LCD → Nat → Option LCD
  | 0, _, _ => none
  | fuel + 1, lcd, i =>
    if (i : Int) < (y0 : Int) + (height : Int) then
      let lcd := lcd_set_pixel cfg lcd x0 i color
      let lcd := lcd_set_pixel cfg lcd ((x0 : Int) + width) i color
      lcd_draw_rectangle_loop cfg x0 y0 width height color fuel lcd (u8 ((i : Int) + 1))
    else some lcd

/-- `lcd_draw_rectangle(lcd, x0, y0, width, height, color)`. -/
def lcd_draw_rectangle (cfg : Header) (lcd : LCD) (x0 y0 width height color : Int) :
    Option LCD :=
  let x0 := u8 x0
  let y0 := u8 y0
  let width := u8 width
  let height := u8 height
  let color := u16 color
  match lcd_draw_br_line cfg lcd x0 y0 ((x0 : Int) + width + 1) y0 color with
  | none => none
  | some lcd =>
    match lcd_draw_br_line cfg lcd x0 ((y0 : Int) + height) ((x0 : Int) + width + 1)
        ((y0 : Int) + height) color with
    | none => none
    | some lcd =>
      lcd_draw_rectangle_loop cfg x0 y0 width height color 256 lcd (u8 ((y0 : Int) + 1))

/-- `fill_rectangle` followed by `draw_rectangle` with the same arguments. -/
def fill_then_draw_rectangle (cfg : Header) (lcd : LCD) (x0 y0 width height color : Int) :
    Option LCD :=
  match lcd_fill_rectangle cfg lcd x0 y0 width height color with
  | none => none
  | some lcd => lcd_draw_rectangle cfg lcd x0 y0 width height color

/-! ## The transport's outcome (`driver.c` lines 45-130, return values made explicit) -/

/-- Modelled from the spec: the result of the transport write, "`write(handle, symbols,
count) -> ok_or_error`" of the absent `spi.c`. -/
inductive SpiResult where
  | ok
  | error (code : Int)
  deriving DecidableEq, Repr

/-- Modelled from the spec: the transport write together with its outcome. The environment
`env` decides the outcome of each write from its number (the count of earlier writes); the
block handed over is logged as by `spi_send_buffer`. -/
def spi_send_buffer_r (env : Nat → SpiResult) (lcd : LCD) (count : Nat) (buffer : Nat → Nat) :
    SpiResult × LCD :=
  (env lcd.spi.length, spi_send_buffer lcd count buffer)

/-- `flush` with return values: the call of `spi_send_buffer` is an expression statement, its
value is dropped, and `flush` itself is `void`. -/
def flush_r (env : Nat → SpiResult) (lcd : LCD) : Unit × LCD :=
  let r := spi_send_buffer_r env lcd lcd.buffer_pos lcd.buffer
  let lcd := r.2
  ((), { lcd with buffer_pos := 0 })

/-- `send` with return values (`void`). -/
def send_r (env : Nat → SpiResult) (cfg : Header) (lcd : LCD) (word : Nat) : Unit × LCD :=
  let lcd := send_store lcd word
  if lcd.buffer_pos = cfg.MAX_BUFFER_SIZE then
    let r := flush_r env lcd
    ((), r.2)
  else ((), lcd)

/-- `send_cmd` with return values (`void`). -/
def send_cmd_r (env : Nat → SpiResult) (cfg : Header) (lcd : LCD) (cmd : Int) : Unit × LCD :=
  let r := send_r env cfg lcd (u8 cmd)
  ((), r.2)

/-- `send_data` with return values (`void`). -/
def send_data_r (env : Nat → SpiResult) (cfg : Header) (lcd : LCD) (data : Int) :
    Unit × LCD :=
  let r := send_r env cfg lcd (u8 data ||| 0x100)
  ((), r.2)

/-- `lcd_set_pixel` with return values (`void`). -/
def lcd_set_pixel_r (env : Nat → SpiResult) (cfg : Header) (lcd : LCD) (x y color : Int) :
    Unit × LCD :=
  let x := u8 x
  let y := u8 y
  let color := u16 color
  let lcd := { lcd with pixels := lcd.pixels ++ [(x, y, color)] }
  let lcd :=
    if lcd.type = cfg.TYPE_EPSON then
      let lcd := (send_cmd_r env cfg lcd cfg.PASET).2
      let lcd := (send_data_r env cfg lcd x).2
      let lcd := (send_data_r env cfg lcd cfg.ENDPAGE).2
      let lcd := (send_cmd_r env cfg lcd cfg.CASET).2
      let lcd := (send_data_r env cfg lcd y).2
      let lcd := (send_data_r env cfg lcd cfg.ENDCOL).2
      let lcd := (send_cmd_r env cfg lcd cfg.RAMWR).2
      let lcd := (send_data_r env cfg lcd (((color >>> 4) &&& 0x00ff : Nat) : Int)).2
      let lcd := (send_data_r env cfg lcd
        (((((color &&& 0x0f) <<< 4) ||| (color >>> 8)) : Nat) : Int)).2
      (send_data_r env cfg lcd ((color &&& 0x0ff : Nat) : Int)).2
    else if lcd.type = cfg.TYPE_PHILIPS then
      let lcd := (send_cmd_r env cfg lcd cfg.PASETP).2
      let lcd := (send_data_r env cfg lcd x).2
      let lcd := (send_data_r env cfg lcd x).2
      let lcd := (send_cmd_r env cfg lcd cfg.CASETP).2
      let lcd := (send_data_r env cfg lcd y).2
      let lcd := (send_data_r env cfg lcd y).2
      let lcd := (send_cmd_r env cfg lcd cfg.RAMWRP).2
      let lcd := (send_data_r env cfg lcd (u8 (((color >>> 4) &&& 0x00FF : Nat) : Int))).2
      (send_data_r env cfg lcd (u8 ((((color &&& 0x0F) <<< 4) ||| 0x00 : Nat) : Int))).2
    else lcd
  let r := flush_r env lcd
  ((), r.2)

/-- The loop of `lcd_clear` with the transport's outcomes threaded through. -/
def lcd_clear_loop_r (env : Nat → SpiResult) (cfg : Header) (color : Int) : Nat → LCD → LCD
  | 0, lcd => lcd
  | n + 1, lcd =>
    let lcd := (send_data_r env cfg lcd (Int.land (color >>> 4) 0xFF)).2
    let lcd := (send_data_r env cfg lcd (Int.lor (Int.land color 0x0F <<< 4) (color >>> 8))).2
    let lcd := (send_data_r env cfg lcd (Int.land color 0x0FF)).2
    lcd_clear_loop_r env cfg color n lcd

/-- `lcd_clear` with return values (`void`). -/
def lcd_clear_r (env : Nat → SpiResult) (cfg : Header) (lcd : LCD) (color : Int) :
    Unit × LCD :=
  let paset : Nat := if lcd.type = cfg.TYPE_EPSON then u8 cfg.PASET else u8 cfg.PASETP
  let caset : Nat := if lcd.type = cfg.TYPE_EPSON then u8 cfg.CASET else u8 cfg.CASETP
  let ramwr : Nat := if lcd.type = cfg.TYPE_EPSON then u8 cfg.RAMWR else u8 cfg.RAMWRP
  let lcd := (send_cmd_r env cfg lcd paset).2
  let lcd := (send_data_r env cfg lcd 0).2
  let lcd := (send_data_r env cfg lcd 132).2
  let lcd := (send_cmd_r env cfg lcd caset).2
  let lcd := (send_data_r env cfg lcd 0).2
  let lcd := (send_data_r env cfg lcd 132).2
  let lcd := (flush_r env lcd).2
  let lcd := (send_cmd_r env cfg lcd ramwr).2
  let lcd := (flush_r env lcd).2
  let lcd := lcd_clear_loop_r env cfg color ((132 * 132) / 2) lcd
  let r := flush_r env lcd
  ((), r.2)

/-- An environment in which every transport write fails with error code `-1`. -/
def failingEnv : Nat → SpiResult := fun _ => SpiResult.error (-1)

/-- An environment in which every transport write succeeds. -/
def okEnv : Nat → SpiResult := fun _ => SpiResult.ok

/-! ## Reference algorithms, written from the words of the specification -/

/-- The walk of the classic Bresenham line in signed integers: one point per step from `x`
to `x1`; the minor coordinate advances when the signed error term is positive. -/
def bresenham_ref_loop (steep : Bool) (x1 xstep ystep TwoDy TwoDyTwoDx : Int) :
    Nat → Int → Int → Int → Option (List (Int × Int))
  | 0, _, _, _ => none
  | fuel + 1, x, y, E =>
    if x ≠ x1 then
      let p : Int × Int := if steep then (y, x) else (x, y)
      let E' : Int := if E > 0 then E + TwoDyTwoDx else E + TwoDy
      let y' : Int := if E > 0 then y + ystep else y
      (bresenham_ref_loop steep x1 xstep ystep TwoDy TwoDyTwoDx fuel (x + xstep) y' E').map
        (fun ps => p :: ps)
    else some []

/-- The classic Bresenham reference in signed integers: steep iff `|dy| >= |dx|`, the axes
swapped when steep, steps `+1` or `-1` by the sign of each delta, error term `2|dy| - |dx|`
changed by `2|dy| - 2|dx|` when positive and by `2|dy|` otherwise. -/
def bresenham_ref (x0 y0 x1 y1 : Int) : Option (List (Int × Int)) :=
  let steep : Bool := decide (Int.natAbs (y1 - y0) ≥ Int.natAbs (x1 - x0))
  let sx0 : Int := if steep then y0 else x0
  let sy0 : Int := if steep then x0 else y0
  let sx1 : Int := if steep then y1 else x1
  let sy1 : Int := if steep then x1 else y1
  let dx : Int := sx1 - sx0
  let dy : Int := sy1 - sy0
  let xstep : Int := if dx < 0 then -1 else 1
  let ystep : Int := if dy < 0 then -1 else 1
  let adx : Int := Int.natAbs dx
  let ady : Int := Int.natAbs dy
  bresenham_ref_loop steep sx1 xstep ystep (2 * ady) (2 * ady - 2 * adx) 256 sx0 sy0
    (2 * ady - adx)

/-- The octant loop of the standard midpoint circle in signed integers. -/
def midpoint_ref_loop (x0 y0 : Int) :
    Nat → Int → Int → Int → Int → Int → Option (List (Int × Int))
  | 0, _, _, _, _, _ => none
  | fuel + 1, f, ddF_x, ddF_y, x, y =>
    if x < y then
      let y' : Int := if f ≥ 0 then y - 1 else y
      let ddF_y' : Int := if f ≥ 0 then ddF_y + 2 else ddF_y
      let f' : Int := if f ≥ 0 then f + ddF_y' else f
      let x' : Int := x + 1
      let ddF_x' : Int := ddF_x + 2
      let f'' : Int := f' + ddF_x'
      (midpoint_ref_loop x0 y0 fuel f'' ddF_x' ddF_y' x' y').map (fun ps =>
        [(x0 + x', y0 + y'), (x0 - x', y0 + y'), (x0 + x', y0 - y'), (x0 - x', y0 - y'),
          (x0 + y', y0 + x'), (x0 - y', y0 + x'), (x0 + y', y0 - x'), (x0 - y', y0 - x')]
          ++ ps)
    else some []

/-- The standard midpoint circle in signed integers: the four extremal points, then the
octant loop with `f` starting at `1 - r`. -/
def midpoint_ref (x0 y0 r : Int) : Option (List (Int × Int)) :=
  (midpoint_ref_loop x0 y0 256 (1 - r) 1 (-2 * r) 0 r).map (fun ps =>
    [(x0, y0 + r), (x0, y0 - r), (x0 + r, y0), (x0 - r, y0)] ++ ps)

/-- The coordinates of a plotted list as signed integers. -/
def asInts (ps : List (Nat × Nat)) : List (Int × Int) :=
  ps.map (fun p => ((p.1 : Int), (p.2 : Int)))

/-- Closure of a set of plotted coordinates under the three reflections about the centre
`(x0, y0)`, coordinates taken modulo 256. -/
def Closed8 (x0 y0 : Nat) (P : List (Nat × Nat)) : Prop :=
  ∀ dx dy : Int, (u8 ((x0 : Int) + dx), u8 ((y0 : Int) + dy)) ∈ P →
    (u8 ((x0 : Int) - dx), u8 ((y0 : Int) + dy)) ∈ P ∧
    (u8 ((x0 : Int) + dx), u8 ((y0 : Int) - dy)) ∈ P ∧
    (u8 ((x0 : Int) + dy), u8 ((y0 : Int) + dx)) ∈ P

/-! ## Facts about machine integers -/

theorem u8_lt (v : Int) : u8 v < 256 := by
  unfold u8; omega

theorem u16_lt (v : Int) : u16 v < 65536 := by
  unfold u16; omega

theorem u8_natCast (n : Nat) : u8 (n : Int) = n % 256 := by
  unfold u8; omega

theorem u8_of_lt (n : Nat) (h : n < 256) : u8 (n : Int) = n := by
  unfold u8; omega

theorem u16_of_lt (n : Nat) (h : n < 65536) : u16 (n : Int) = n := by
  unfold u16; omega

theorem lor_tag (b : Nat) (h : b < 256) : b ||| 0x100 = b + 256 := by
  have h1 : b < 2 ^ 8 := by simpa using h
  have h2 := Nat.mul_add_lt_is_or h1 1
  rw [Nat.lor_comm]
  simp only [Nat.reducePow, Nat.mul_one] at h2
  omega

theorem data_word_lt (v : Int) : u8 v ||| 0x100 < 65536 := by
  rw [lor_tag _ (u8_lt v)]
  have := u8_lt v
  omega

theorem Call.word_lt (c : Call) : c.word < 65536 := by
  cases c with
  | cmd b => have := u8_lt b; simp only [Call.word]; omega
  | data b => exact data_word_lt b

/-! ## Facts about the symbol buffer -/

theorem stream_flush (lcd : LCD) : stream (flush lcd) = stream lcd := by
  simp [stream, flush, spi_send_buffer]

theorem flush_spi_flatten (lcd : LCD) : (flush lcd).spi.flatten = stream lcd := by
  simp [stream, flush, spi_send_buffer]

theorem flush_buffer_pos (lcd : LCD) : (flush lcd).buffer_pos = 0 := rfl

theorem stream_of_empty (lcd : LCD) (h0 : lcd.buffer_pos = 0) :
    stream lcd = lcd.spi.flatten := by
  simp [stream, h0]

theorem stream_send_store (lcd : LCD) (w : Nat) :
    stream (send_store lcd w) = stream lcd ++ [w % 65536] := by
  simp only [stream, send_store, List.range_succ, List.map_append, List.map_cons, List.map_nil,
    if_true, List.append_assoc]
  congr 2
  apply List.map_congr_left
  intro i hi
  have : i < lcd.buffer_pos := List.mem_range.mp hi
  simp [Nat.ne_of_lt this]

theorem stream_send (cfg : Header) (lcd : LCD) (w : Nat) :
    stream (send cfg lcd w) = stream lcd ++ [w % 65536] := by
  unfold send
  simp only
  split
  · rw [stream_flush, stream_send_store]
  · rw [stream_send_store]

theorem stream_send_cmd (cfg : Header) (lcd : LCD) (b : Int) :
    stream (send_cmd cfg lcd b) = stream lcd ++ [u8 b] := by
  have := u8_lt b
  rw [send_cmd, stream_send, Nat.mod_eq_of_lt (by omega)]

theorem stream_send_data (cfg : Header) (lcd : LCD) (b : Int) :
    stream (send_data cfg lcd b) = stream lcd ++ [u8 b + 256] := by
  rw [send_data, stream_send, Nat.mod_eq_of_lt (data_word_lt b), lor_tag _ (u8_lt b)]

theorem stream_call (cfg : Header) (lcd : LCD) (c : Call) :
    stream (c.run cfg lcd) = stream lcd ++ [c.word] := by
  cases c with
  | cmd b => exact stream_send_cmd cfg lcd b
  | data b =>
    simp only [Call.run, Call.word, stream_send_data, lor_tag _ (u8_lt b)]

theorem stream_runCalls (cfg : Header) (calls : List Call) :
    ∀ lcd : LCD, stream (runCalls cfg lcd calls) = stream lcd ++ calls.map Call.word := by
  induction calls with
  | nil => intro lcd; simp [runCalls]
  | cons c cs ih =>
    intro lcd
    have h := ih (c.run cfg lcd)
    simp only [runCalls, List.foldl_cons, List.map_cons] at h ⊢
    rw [h, stream_call]
    simp

theorem send_buffer_pos_lt (cfg : Header) (lcd : LCD) (w : Nat)
    (h : lcd.buffer_pos < cfg.MAX_BUFFER_SIZE) :
    (send cfg lcd w).buffer_pos < cfg.MAX_BUFFER_SIZE := by
  unfold send
  simp only
  split
  · rw [flush_buffer_pos]; omega
  · rename_i hne
    simp only [send_store] at hne ⊢
    omega

/-- Below capacity `send` only stores: no transport write, position advanced by one. -/
theorem send_below (cfg : Header) (lcd : LCD) (w : Nat)
    (h : lcd.buffer_pos + 1 < cfg.MAX_BUFFER_SIZE) :
    (send cfg lcd w).spi = lcd.spi ∧ (send cfg lcd w).buffer_pos = lcd.buffer_pos + 1 := by
  unfold send
  simp only
  rw [if_neg]
  · exact ⟨rfl, rfl⟩
  · simp only [send_store]; omega

theorem call_below (cfg : Header) (lcd : LCD) (c : Call)
    (h : lcd.buffer_pos + 1 < cfg.MAX_BUFFER_SIZE) :
    (c.run cfg lcd).spi = lcd.spi ∧ (c.run cfg lcd).buffer_pos = lcd.buffer_pos + 1 := by
  cases c with
  | cmd b => exact send_below cfg lcd _ h
  | data b => exact send_below cfg lcd _ h

theorem runCalls_below (cfg : Header) (calls : List Call) :
    ∀ lcd : LCD, lcd.buffer_pos + calls.length < cfg.MAX_BUFFER_SIZE →
      (runCalls cfg lcd calls).spi = lcd.spi ∧
      (runCalls cfg lcd calls).buffer_pos = lcd.buffer_pos + calls.length := by
  induction calls with
  | nil => intro lcd _; simp [runCalls]
  | cons c cs ih =>
    intro lcd h
    simp only [List.length_cons] at h
    obtain ⟨h1, h2⟩ := call_below cfg lcd c (by omega)
    obtain ⟨h3, h4⟩ := ih (c.run cfg lcd) (by omega)
    simp only [runCalls, List.foldl_cons, List.length_cons] at h3 h4 ⊢
    exact ⟨by rw [h3, h1], by omega⟩

/-- The block a flush hands over when no write happened since `lcd`, whose buffer was empty. -/
theorem queued_of_spi_eq (lcd lcd' : LCD) (ws : List Nat) (h0 : lcd.buffer_pos = 0)
    (hspi : lcd'.spi = lcd.spi) (hs : stream lcd' = stream lcd ++ ws) :
    (List.range lcd'.buffer_pos).map lcd'.buffer = ws := by
  rw [stream_of_empty lcd h0] at hs
  simp only [stream, hspi] at hs
  exact List.append_cancel_left hs

/-- At capacity minus one `send` stores and flushes the whole buffer in one write. -/
theorem send_at_capacity (cfg : Header) (lcd : LCD) (w : Nat)
    (h : lcd.buffer_pos + 1 = cfg.MAX_BUFFER_SIZE) :
    (send cfg lcd w).spi
      = lcd.spi ++ [(List.range lcd.buffer_pos).map lcd.buffer ++ [w % 65536]] := by
  have hs := stream_send_store lcd w
  unfold send
  simp only
  rw [if_pos (by simpa [send_store] using h)]
  simp only [stream] at hs
  have hspi : (send_store lcd w).spi = lcd.spi := rfl
  rw [hspi, List.append_assoc] at hs
  have := List.append_cancel_left hs
  simp only [flush, spi_send_buffer, hspi, this]

/-- The invariant of the buffer interface: the fill position is strictly below the capacity
and no block handed to the transport is longer than the capacity. -/
theorem flush_inv (cfg : Header) (lcd : LCD) (hM : 1 ≤ cfg.MAX_BUFFER_SIZE)
    (hp : lcd.buffer_pos ≤ cfg.MAX_BUFFER_SIZE)
    (hb : ∀ b ∈ lcd.spi, b.length ≤ cfg.MAX_BUFFER_SIZE) :
    (flush lcd).buffer_pos < cfg.MAX_BUFFER_SIZE ∧
      ∀ b ∈ (flush lcd).spi, b.length ≤ cfg.MAX_BUFFER_SIZE := by
  refine ⟨by rw [flush_buffer_pos]; omega, ?_⟩
  intro b hbm
  simp only [flush, spi_send_buffer, List.mem_append, List.mem_singleton] at hbm
  rcases hbm with hbm | hbm
  · exact hb b hbm
  · subst hbm; simpa using hp

theorem send_inv (cfg : Header) (lcd : LCD) (w : Nat)
    (hp : lcd.buffer_pos < cfg.MAX_BUFFER_SIZE)
    (hb : ∀ b ∈ lcd.spi, b.length ≤ cfg.MAX_BUFFER_SIZE) :
    (send cfg lcd w).buffer_pos < cfg.MAX_BUFFER_SIZE ∧
      ∀ b ∈ (send cfg lcd w).spi, b.length ≤ cfg.MAX_BUFFER_SIZE := by
  refine ⟨send_buffer_pos_lt cfg lcd w hp, ?_⟩
  unfold send
  simp only
  split
  · exact (flush_inv cfg (send_store lcd w) (by omega)
      (by simp only [send_store]; omega) hb).2
  · exact hb

theorem op_inv (cfg : Header) (lcd : LCD) (op : Op)
    (hp : lcd.buffer_pos < cfg.MAX_BUFFER_SIZE)
    (hb : ∀ b ∈ lcd.spi, b.length ≤ cfg.MAX_BUFFER_SIZE) :
    (op.run cfg lcd).buffer_pos < cfg.MAX_BUFFER_SIZE ∧
      ∀ b ∈ (op.run cfg lcd).spi, b.length ≤ cfg.MAX_BUFFER_SIZE := by
  cases op with
  | send w => exact send_inv cfg lcd w hp hb
  | send_cmd b => exact send_inv cfg lcd _ hp hb
  | send_data b => exact send_inv cfg lcd _ hp hb
  | flush => exact flush_inv cfg lcd (by omega) (by omega) hb

theorem runOps_inv (cfg : Header) (ops : List Op) :
    ∀ lcd : LCD, lcd.buffer_pos < cfg.MAX_BUFFER_SIZE →
      (∀ b ∈ lcd.spi, b.length ≤ cfg.MAX_BUFFER_SIZE) →
      (runOps cfg lcd ops).buffer_pos < cfg.MAX_BUFFER_SIZE ∧
        ∀ b ∈ (runOps cfg lcd ops).spi, b.length ≤ cfg.MAX_BUFFER_SIZE := by
  induction ops with
  | nil => intro lcd hp hb; exact ⟨hp, hb⟩
  | cons op ops ih =>
    intro lcd hp hb
    obtain ⟨h1, h2⟩ := op_inv cfg lcd op hp hb
    exact ih (op.run cfg lcd) h1 h2

/-! ## The symbol buffer: claims C1 to C4 -/

/-- C1: any sequence of `send_cmd`/`send_data` calls, of any length, started on an empty
buffer and followed by one `flush`, hands to the transport, over all its writes concatenated
in order, exactly the tagged words of the calls in submission order. -/
theorem send_calls_then_flush_in_order (cfg : Header) (lcd : LCD) (calls : List Call)
    (h0 : lcd.buffer_pos = 0) :
    (flush (runCalls cfg lcd calls)).spi.flatten
      = lcd.spi.flatten ++ calls.map Call.word := by
  rw [flush_spi_flatten, stream_runCalls, stream_of_empty lcd h0]

/-- C2: from an empty buffer, fewer than `MAX_BUFFER_SIZE` calls cause no transport write
and an explicit `flush` then writes them as one block; exactly `MAX_BUFFER_SIZE` calls cause
one write, the block of all of them, made by the last call. -/
theorem no_write_until_capacity_or_flush (cfg : Header) (lcd : LCD) (calls : List Call)
    (h0 : lcd.buffer_pos = 0) :
    (calls.length < cfg.MAX_BUFFER_SIZE →
      (runCalls cfg lcd calls).spi = lcd.spi ∧
      (flush (runCalls cfg lcd calls)).spi = lcd.spi ++ [calls.map Call.word]) ∧
    (∀ c : Call, calls.length + 1 = cfg.MAX_BUFFER_SIZE →
      (runCalls cfg lcd (calls ++ [c])).spi = lcd.spi ++ [(calls ++ [c]).map Call.word]) := by
  have key : calls.length < cfg.MAX_BUFFER_SIZE →
      (runCalls cfg lcd calls).spi = lcd.spi ∧
      (runCalls cfg lcd calls).buffer_pos = calls.length ∧
      (List.range (runCalls cfg lcd calls).buffer_pos).map (runCalls cfg lcd calls).buffer
        = calls.map Call.word := by
    intro hlt
    obtain ⟨h1, h2⟩ := runCalls_below cfg calls lcd (by omega)
    exact ⟨h1, by omega, queued_of_spi_eq lcd _ _ h0 h1 (stream_runCalls cfg calls lcd)⟩
  constructor
  · intro hlt
    obtain ⟨h1, _, h3⟩ := key hlt
    refine ⟨h1, ?_⟩
    simp only [flush, spi_send_buffer, h1, h3]
  · intro c hlen
    obtain ⟨h1, h2, h3⟩ := key (by omega)
    have hrun : runCalls cfg lcd (calls ++ [c]) = c.run cfg (runCalls cfg lcd calls) := by
      simp [runCalls, List.foldl_append]
    have hw : c.word % 65536 = c.word := Nat.mod_eq_of_lt c.word_lt
    rw [hrun]
    cases c with
    | cmd b =>
      have := send_at_capacity cfg (runCalls cfg lcd calls) (u8 b) (by omega)
      simp only [Call.run, send_cmd, this, h1, h3]
      simp only [Call.word] at hw
      simp [hw, Call.word]
    | data b =>
      have := send_at_capacity cfg (runCalls cfg lcd calls) (u8 b ||| 0x100) (by omega)
      simp only [Call.run, send_data, this, h1, h3]
      simp only [Call.word] at hw
      simp [hw, Call.word]

/-- C3: for a byte `b`, `send_data(b)` queues the word `b + 256` (bit 8 set, low eight bits
`b`) and `send_cmd(b)` queues the word `b` (bit 8 clear, low eight bits `b`); in both words
bits 9 to 15 are zero. -/
theorem tagged_symbol_of_byte (cfg : Header) (lcd : LCD) (b : Nat) (hb : b < 256) :
    (stream (send_data cfg lcd b) = stream lcd ++ [b + 256] ∧
      (b + 256).testBit 8 = true ∧ (b + 256) % 256 = b ∧ (b + 256) / 512 = 0) ∧
    (stream (send_cmd cfg lcd b) = stream lcd ++ [b] ∧
      b.testBit 8 = false ∧ b % 256 = b ∧ b / 512 = 0) := by
  refine ⟨⟨?_, ?_, by omega, by omega⟩, ⟨?_, ?_, by omega, by omega⟩⟩
  · rw [stream_send_data, u8_of_lt b hb]
  · have := Nat.testBit_two_pow_add_eq b 8
    rw [Nat.add_comm]
    simp only [Nat.reducePow] at this
    rw [this, Nat.testBit_lt_two_pow (by simpa using hb)]
    rfl
  · rw [stream_send_cmd, u8_of_lt b hb]
  · exact Nat.testBit_lt_two_pow (by omega)

/-- C4: with `MAX_BUFFER_SIZE >= 1`, in every state reached from an empty buffer by any
sequence of `send`, `send_cmd`, `send_data` and `flush`, the fill position is at most, and
in fact strictly below, `MAX_BUFFER_SIZE`; hence the store of the next `send` is in bounds,
the position after that store is at most `MAX_BUFFER_SIZE`, and every block handed to the
transport has at most `MAX_BUFFER_SIZE` symbols. -/
theorem buffer_pos_invariant (cfg : Header) (lcd : LCD) (ops : List Op)
    (hM : 1 ≤ cfg.MAX_BUFFER_SIZE) (h0 : lcd.buffer_pos = 0) (hspi : lcd.spi = []) :
    (runOps cfg lcd ops).buffer_pos ≤ cfg.MAX_BUFFER_SIZE ∧
    (runOps cfg lcd ops).buffer_pos < cfg.MAX_BUFFER_SIZE ∧
    (∀ w : Nat, (send_store (runOps cfg lcd ops) w).buffer_pos ≤ cfg.MAX_BUFFER_SIZE) ∧
    (∀ b ∈ (runOps cfg lcd ops).spi, b.length ≤ cfg.MAX_BUFFER_SIZE) := by
  obtain ⟨h1, h2⟩ := runOps_inv cfg ops lcd (by omega) (by simp [hspi])
  refine ⟨by omega, h1, ?_, h2⟩
  intro w
  simp only [send_store]
  omega

/-! ## Facts about `lcd_set_pixel` and `lcd_clear` -/

theorem stream_set_pixel_philips (cfg : Header) (lcd : LCD) (x y color : Nat) :
    stream (set_pixel_philips cfg lcd x y color) = stream lcd ++
      [u8 cfg.PASETP, x % 256 + 256, x % 256 + 256, u8 cfg.CASETP, y % 256 + 256,
        y % 256 + 256, u8 cfg.RAMWRP, ((color >>> 4) &&& 0xFF) + 256,
        (((color &&& 0xF) <<< 4) &&& 0xFF) + 256] := by
  have e1 : ((color >>> 4) &&& 0xFF) % 256 % 256 = (color >>> 4) &&& 0xFF := by
    have := Nat.and_pow_two_sub_one_eq_mod (color >>> 4) 8
    simp only [Nat.reducePow, Nat.add_one_sub_one] at this
    omega
  have e2 : (((color &&& 0xF) <<< 4) ||| 0x00) % 256 % 256 = ((color &&& 0xF) <<< 4) &&& 0xFF := by
    have := Nat.and_pow_two_sub_one_eq_mod ((color &&& 0xF) <<< 4) 8
    simp only [Nat.reducePow, Nat.add_one_sub_one] at this
    rw [Nat.or_zero]
    omega
  simp only [set_pixel_philips, stream_send_cmd, stream_send_data, u8_natCast, e1, e2,
    List.append_assoc, List.singleton_append, List.cons_append, List.nil_append]

theorem lcd_set_pixel_philips_spi (cfg : Header) (lcd : LCD) (x y color : Int)
    (hne : cfg.TYPE_EPSON ≠ cfg.TYPE_PHILIPS) (ht : lcd.type = cfg.TYPE_PHILIPS)
    (h0 : lcd.buffer_pos = 0) :
    (lcd_set_pixel cfg lcd x y color).spi.flatten = lcd.spi.flatten ++
      [u8 cfg.PASETP, u8 x + 256, u8 x + 256, u8 cfg.CASETP, u8 y + 256, u8 y + 256,
        u8 cfg.RAMWRP, ((u16 color >>> 4) &&& 0xFF) + 256,
        (((u16 color &&& 0xF) <<< 4) &&& 0xFF) + 256] := by
  have hx := u8_lt x
  have hy := u8_lt y
  unfold lcd_set_pixel
  simp only
  rw [if_neg (by rw [ht]; exact fun h => hne h.symm), if_pos ht, flush_spi_flatten,
    stream_set_pixel_philips, Nat.mod_eq_of_lt hx, Nat.mod_eq_of_lt hy]
  simp [stream, h0]

theorem stream_lcd_clear_loop (cfg : Header) (color : Int) (n : Nat) :
    ∀ lcd : LCD, stream (lcd_clear_loop cfg color n lcd) = stream lcd ++
      (List.replicate n
        [u8 (Int.land (color >>> 4) 0xFF) + 256,
          u8 (Int.lor (Int.land color 0x0F <<< 4) (color >>> 8)) + 256,
          u8 (Int.land color 0x0FF) + 256]).flatten := by
  induction n with
  | zero => intro lcd; simp [lcd_clear_loop]
  | succ n ih =>
    intro lcd
    simp only [lcd_clear_loop, ih, stream_send_data, List.replicate_succ, List.flatten_cons,
      List.append_assoc, List.singleton_append, List.cons_append, List.nil_append]

/-! ## Pixel addressing: claims C5 to C7 -/

/-- C5 as stated fails: on a Philips driver with an empty buffer `set_pixel(5, 10, 0x0F0)`
does not transmit the data bytes `0x00, 0x0F` after the RAM-write command. -/
theorem philips_pixel_bytes_not_00_0F :
    (lcd_set_pixel sampleHeader (emptyLCD sampleHeader.TYPE_PHILIPS) 5 10 0x0F0).spi.flatten
      ≠ [u8 sampleHeader.PASETP, 5 + 256, 5 + 256, u8 sampleHeader.CASETP, 10 + 256, 10 + 256,
          u8 sampleHeader.RAMWRP, 0x00 + 256, 0x0F + 256] := by
  decide

/-- C5 amended: on a Philips driver with an empty buffer `set_pixel(5, 10, 0x0F0)` transmits
command PASETP, data 5, data 5, command CASETP, data 10, data 10, command RAMWRP and then
exactly two data bytes, `0x0F` followed by `0x00`. -/
theorem set_pixel_philips_example (cfg : Header) (lcd : LCD)
    (hne : cfg.TYPE_EPSON ≠ cfg.TYPE_PHILIPS) (ht : lcd.type = cfg.TYPE_PHILIPS)
    (h0 : lcd.buffer_pos = 0) :
    (lcd_set_pixel cfg lcd 5 10 0x0F0).spi.flatten = lcd.spi.flatten ++
      [u8 cfg.PASETP, 5 + 256, 5 + 256, u8 cfg.CASETP, 10 + 256, 10 + 256, u8 cfg.RAMWRP,
        0x0F + 256, 0x00 + 256] := by
  rw [lcd_set_pixel_philips_spi cfg lcd 5 10 0x0F0 hne ht h0]
  rfl

/-- C6: for bytes `x`, `y` and a 16-bit colour `c`, `set_pixel` on a Philips driver with an
empty buffer transmits exactly nine symbols: command PASETP, data `x`, data `x`, command
CASETP, data `y`, data `y`, command RAMWRP, data `(c>>4)&0xFF`, data `((c&0xF)<<4)&0xFF`; and
it returns with the buffer empty. -/
theorem set_pixel_philips_transaction (cfg : Header) (lcd : LCD) (x y c : Nat)
    (hne : cfg.TYPE_EPSON ≠ cfg.TYPE_PHILIPS) (ht : lcd.type = cfg.TYPE_PHILIPS)
    (h0 : lcd.buffer_pos = 0) (hx : x < 256) (hy : y < 256) (hc : c < 65536) :
    (lcd_set_pixel cfg lcd x y c).spi.flatten = lcd.spi.flatten ++
      [u8 cfg.PASETP, x + 256, x + 256, u8 cfg.CASETP, y + 256, y + 256, u8 cfg.RAMWRP,
        ((c >>> 4) &&& 0xFF) + 256, (((c &&& 0xF) <<< 4) &&& 0xFF) + 256] ∧
    (lcd_set_pixel cfg lcd x y c).buffer_pos = 0 := by
  refine ⟨?_, rfl⟩
  rw [lcd_set_pixel_philips_spi cfg lcd x y c hne ht h0, u8_of_lt x hx, u8_of_lt y hy,
    u16_of_lt c hc]

theorem length_flatten_replicate {α : Type} (n : Nat) (l : List α) :
    (List.replicate n l).flatten.length = n * l.length := by
  induction n with
  | zero => simp
  | succ n ih => simp only [List.replicate_succ, List.flatten_cons, List.length_append, ih]; ring

theorem lcd_clear_spi (cfg : Header) (lcd : LCD) (c : Int) (h0 : lcd.buffer_pos = 0) :
    (lcd_clear cfg lcd c).spi.flatten = lcd.spi.flatten ++
      [if lcd.type = cfg.TYPE_EPSON then u8 cfg.PASET else u8 cfg.PASETP, 0 + 256, 132 + 256,
        if lcd.type = cfg.TYPE_EPSON then u8 cfg.CASET else u8 cfg.CASETP, 0 + 256, 132 + 256,
        if lcd.type = cfg.TYPE_EPSON then u8 cfg.RAMWR else u8 cfg.RAMWRP] ++
      (List.replicate ((132 * 132) / 2) (clear_pattern c)).flatten := by
  have e0 : u8 0 = 0 := rfl
  have e132 : u8 132 = 132 := rfl
  have em : ∀ v : Int, u8 v % 256 = u8 v := fun v => Nat.mod_eq_of_lt (u8_lt v)
  unfold lcd_clear
  generalize (132 * 132) / 2 = n
  simp only [flush_spi_flatten, stream_lcd_clear_loop, stream_flush, stream_send_cmd,
    stream_send_data, stream_of_empty lcd h0, u8_natCast, e0, e132, clear_pattern,
    List.append_assoc, List.singleton_append, List.cons_append, List.nil_append]
  split <;> simp only [em]

/-- C7: for every colour `c` and an empty buffer on entry, `lcd_clear` transmits the window
preamble, the RAM-write command and then exactly `(132*132)/2 = 8712` repetitions of the
three data words derived from `c`, that is 26136 data symbols and nothing else; for an Epson
driver and `c = 0xFFF` the three bytes are `0xFF, 0xFF, 0xFF`. -/
theorem lcd_clear_stream (cfg : Header) (lcd : LCD) (c : Int) (h0 : lcd.buffer_pos = 0) :
    (lcd_clear cfg lcd c).spi.flatten = lcd.spi.flatten ++
      [if lcd.type = cfg.TYPE_EPSON then u8 cfg.PASET else u8 cfg.PASETP, 0 + 256, 132 + 256,
        if lcd.type = cfg.TYPE_EPSON then u8 cfg.CASET else u8 cfg.CASETP, 0 + 256, 132 + 256,
        if lcd.type = cfg.TYPE_EPSON then u8 cfg.RAMWR else u8 cfg.RAMWRP] ++
      (List.replicate 8712 (clear_pattern c)).flatten ∧
    (List.replicate 8712 (clear_pattern c)).flatten.length = 26136 ∧
    (∀ s ∈ (List.replicate 8712 (clear_pattern c)).flatten, 256 ≤ s ∧ s < 512) ∧
    (lcd.type = cfg.TYPE_EPSON →
      (lcd_clear cfg lcd 0xFFF).spi.flatten = lcd.spi.flatten ++
        [u8 cfg.PASET, 0 + 256, 132 + 256, u8 cfg.CASET, 0 + 256, 132 + 256, u8 cfg.RAMWR] ++
        (List.replicate 8712 [0xFF + 256, 0xFF + 256, 0xFF + 256]).flatten) := by
  have hn : (132 * 132) / 2 = 8712 := rfl
  refine ⟨hn ▸ lcd_clear_spi cfg lcd c h0, ?_, ?_, ?_⟩
  · rw [length_flatten_replicate]; rfl
  · intro s hs
    rw [List.mem_flatten] at hs
    obtain ⟨l, hl, hs⟩ := hs
    rw [List.eq_of_mem_replicate hl] at hs
    simp only [clear_pattern, List.mem_cons, List.mem_singleton, List.not_mem_nil,
      or_false] at hs
    rcases hs with rfl | rfl | rfl
    · have := u8_lt (Int.land (c >>> 4) 0xFF); omega
    · have := u8_lt (Int.lor (Int.land c 0x0F <<< 4) (c >>> 8)); omega
    · have := u8_lt (Int.land c 0x0FF); omega
  · intro ht
    have hp : clear_pattern 0xFFF = [0xFF + 256, 0xFF + 256, 0xFF + 256] := by decide
    have h := lcd_clear_spi cfg lcd 0xFFF h0
    rw [hp, hn] at h
    rw [h]
    simp only [ht, if_true]

/-! ## Facts about the rasterizer -/

theorem send_pixels (cfg : Header) (lcd : LCD) (w : Nat) :
    (send cfg lcd w).pixels = lcd.pixels := by
  unfold send
  simp only
  split <;> rfl

theorem set_pixel_epson_pixels (cfg : Header) (lcd : LCD) (x y color : Nat) :
    (set_pixel_epson cfg lcd x y color).pixels = lcd.pixels := by
  simp only [set_pixel_epson, send_cmd, send_data, send_pixels]

theorem set_pixel_philips_pixels (cfg : Header) (lcd : LCD) (x y color : Nat) :
    (set_pixel_philips cfg lcd x y color).pixels = lcd.pixels := by
  simp only [set_pixel_philips, send_cmd, send_data, send_pixels]

/-- Each `lcd_set_pixel` call appends its converted arguments to the call log. -/
theorem lcd_set_pixel_pixels (cfg : Header) (lcd : LCD) (x y color : Int) :
    (lcd_set_pixel cfg lcd x y color).pixels = lcd.pixels ++ [(u8 x, u8 y, u16 color)] := by
  unfold lcd_set_pixel
  simp only
  split
  · exact set_pixel_epson_pixels cfg _ _ _ _
  · split
    · exact set_pixel_philips_pixels cfg _ _ _ _
    · rfl

theorem plotAll_pixels (cfg : Header) (color : Nat) (ps : List (Nat × Nat)) :
    ∀ lcd : LCD, (plotAll cfg color lcd ps).pixels
      = lcd.pixels ++ ps.map (fun p => (u8 p.1, u8 p.2, u16 color)) := by
  induction ps with
  | nil => intro lcd; simp [plotAll]
  | cons p ps ih =>
    intro lcd
    have h := ih (lcd_set_pixel cfg lcd p.1 p.2 color)
    simp only [plotAll, List.foldl_cons, List.map_cons] at h ⊢
    rw [h, lcd_set_pixel_pixels]
    simp

/-- The line loop is its point list plotted on the driver. -/
theorem lcd_draw_br_line_loop_eq (cfg : Header) (steep : Bool)
    (x1 xstep ystep TwoDy TwoDyTwoDx color : Nat) (fuel : Nat) :
    ∀ (lcd : LCD) (x y E : Nat),
      lcd_draw_br_line_loop cfg steep x1 xstep ystep TwoDy TwoDyTwoDx color fuel lcd x y E
        = (br_line_loop_points steep x1 xstep ystep TwoDy TwoDyTwoDx fuel x y E).map
            (plotAll cfg color lcd) := by
  induction fuel with
  | zero => intro lcd x y E; rfl
  | succ fuel ih =>
    intro lcd x y E
    simp only [lcd_draw_br_line_loop, br_line_loop_points]
    split
    · rw [ih, Option.map_map]
      rfl
    · rfl

theorem lcd_draw_br_line_eq (cfg : Header) (lcd : LCD) (x0 y0 x1 y1 color : Int) :
    lcd_draw_br_line cfg lcd x0 y0 x1 y1 color
      = (br_line_points x0 y0 x1 y1).map (plotAll cfg (u16 color) lcd) := by
  unfold lcd_draw_br_line br_line_points
  simp only [lcd_draw_br_line_loop_eq]

theorem newPixels_append (lcd lcd' : LCD) (l : List (Nat × Nat × Nat))
    (h : lcd'.pixels = lcd.pixels ++ l) : newPixels lcd lcd' = l := by
  simp [newPixels, h]

/-- The coordinates plotted by a line are the points of its control flow. -/
theorem plotted_lcd_draw_br_line (cfg : Header) (lcd : LCD) (x0 y0 x1 y1 color : Int) :
    plotted lcd (lcd_draw_br_line cfg lcd x0 y0 x1 y1 color)
      = ((br_line_points x0 y0 x1 y1).getD []).map (fun p => (u8 p.1, u8 p.2)) := by
  rw [lcd_draw_br_line_eq]
  cases br_line_points x0 y0 x1 y1 with
  | none => rfl
  | some ps =>
    simp only [Option.map_some', plotted, Option.getD_some,
      newPixels_append lcd _ _ (plotAll_pixels cfg (u16 color) ps lcd), List.map_map]
    rfl

/-! ## The rasterizer: claims C8 to C10 -/

/-- C8 as stated fails: the zero-length call `draw_line(3, 4, 3, 4, 7)` returns having made
no `set_pixel` call, not the single call `set_pixel(3, 4, 7)`. -/
theorem draw_line_zero_length_example :
    (lcd_draw_br_line sampleHeader (emptyLCD sampleHeader.TYPE_PHILIPS) 3 4 3 4 7).map
        (fun l => l.pixels) = some [] ∧
    (lcd_draw_br_line sampleHeader (emptyLCD sampleHeader.TYPE_PHILIPS) 3 4 3 4 7).map
        (fun l => l.pixels) ≠ some [(3, 4, 7)] := by
  decide

/-- C8 amended: for every `x`, `y` and colour `c`, the zero-length call
`draw_line(x, y, x, y, c)` returns with the driver unchanged: it makes no `set_pixel` call
(after the axis swap start and end of the walk coincide, so the loop body never runs). -/
theorem draw_line_zero_length_plots_nothing (cfg : Header) (lcd : LCD) (x y c : Int) :
    lcd_draw_br_line cfg lcd x y x y c = some lcd ∧
    (lcd_draw_br_line cfg lcd x y x y c).map (newPixels lcd) = some [] := by
  have h : lcd_draw_br_line cfg lcd x y x y c = some lcd := by
    unfold lcd_draw_br_line
    simp [lcd_draw_br_line_loop]
  refine ⟨h, ?_⟩
  rw [h]
  simp [newPixels]

set_option maxRecDepth 100000 in
/-- C9 as stated fails: the coordinates plotted by `draw_line(0, 0, 10, 0, 7)` and by
`draw_line(10, 0, 0, 0, 7)` are not the same set. -/
theorem draw_line_not_symmetric_example :
    ¬ (∀ p : Nat × Nat,
        p ∈ plotted (emptyLCD sampleHeader.TYPE_PHILIPS)
            (lcd_draw_br_line sampleHeader (emptyLCD sampleHeader.TYPE_PHILIPS) 0 0 10 0 7) ↔
        p ∈ plotted (emptyLCD sampleHeader.TYPE_PHILIPS)
            (lcd_draw_br_line sampleHeader (emptyLCD sampleHeader.TYPE_PHILIPS) 10 0 0 0 7)) := by
  intro h
  have h10 := (h (10, 0)).mpr
  rw [plotted_lcd_draw_br_line, plotted_lcd_draw_br_line] at h10
  revert h10
  decide

set_option maxRecDepth 100000 in
/-- C9 amended: `draw_line` is not symmetric in its endpoints; each call plots its start
point and not its end point: `draw_line(0, 0, 10, 0, c)` returns having plotted `(0, 0)` and
not `(10, 0)`, and `draw_line(10, 0, 0, 0, c)` returns having plotted `(10, 0)` and not
`(0, 0)`. -/
theorem draw_line_start_plotted_end_not (cfg : Header) (lcd : LCD) (c : Int) :
    (lcd_draw_br_line cfg lcd 0 0 10 0 c).isSome = true ∧
    (lcd_draw_br_line cfg lcd 10 0 0 0 c).isSome = true ∧
    (0, 0) ∈ plotted lcd (lcd_draw_br_line cfg lcd 0 0 10 0 c) ∧
    (10, 0) ∉ plotted lcd (lcd_draw_br_line cfg lcd 0 0 10 0 c) ∧
    (10, 0) ∈ plotted lcd (lcd_draw_br_line cfg lcd 10 0 0 0 c) ∧
    (0, 0) ∉ plotted lcd (lcd_draw_br_line cfg lcd 10 0 0 0 c) := by
  have s1 : (br_line_points 0 0 10 0).isSome = true := by decide
  have s2 : (br_line_points 10 0 0 0).isSome = true := by decide
  refine ⟨?_, ?_, ?_, ?_, ?_, ?_⟩
  · rw [lcd_draw_br_line_eq, Option.isSome_map']; exact s1
  · rw [lcd_draw_br_line_eq, Option.isSome_map']; exact s2
  · rw [plotted_lcd_draw_br_line]; decide
  · rw [plotted_lcd_draw_br_line]; decide
  · rw [plotted_lcd_draw_br_line]; decide
  · rw [plotted_lcd_draw_br_line]; decide

/-- C10: for bytes `x0`, `y0` and a 16-bit colour `c`, `draw_circle(x0, y0, 0, c)` returns
having made exactly four `set_pixel` calls, each `set_pixel(x0, y0, c)`; the octant loop body
does not run. -/
theorem draw_circle_radius_zero (cfg : Header) (lcd : LCD) (x0 y0 c : Nat)
    (hx : x0 < 256) (hy : y0 < 256) (hc : c < 65536) :
    (lcd_draw_circle cfg lcd x0 y0 0 c).map (newPixels lcd)
      = some [(x0, y0, c), (x0, y0, c), (x0, y0, c), (x0, y0, c)] ∧
    (∀ (l : LCD) (f ddF_x ddF_y fuel : Nat),
      lcd_draw_circle_loop cfg x0 y0 c (fuel + 1) l f ddF_x ddF_y 0 0 = some l) := by
  have e0 : u8 0 = 0 := rfl
  have ex : u8 (x0 : Int) = x0 := u8_of_lt x0 hx
  have ey : u8 (y0 : Int) = y0 := u8_of_lt y0 hy
  have ec : u16 (c : Int) = c := u16_of_lt c hc
  have hloop : ∀ (l : LCD) (f ddF_x ddF_y fuel : Nat),
      lcd_draw_circle_loop cfg x0 y0 c (fuel + 1) l f ddF_x ddF_y 0 0 = some l := by
    intro l f ddF_x ddF_y fuel
    simp [lcd_draw_circle_loop]
  refine ⟨?_, hloop⟩
  unfold lcd_draw_circle
  simp only [e0, ex, ey, ec]
  rw [show (256 : Nat) = 255 + 1 from rfl, hloop, Option.map_some',
    newPixels_append lcd _ [(x0, y0, c), (x0, y0, c), (x0, y0, c), (x0, y0, c)]]
  simp only [lcd_set_pixel_pixels, ex, ey, ec, Nat.cast_zero, add_zero, sub_zero,
    List.append_assoc, List.singleton_append, List.cons_append, List.nil_append]

/-! ## Instances at concrete inputs -/

/-- Three calls on a two-symbol buffer: one automatic write, then the explicit flush. -/
theorem send_calls_then_flush_in_order_witness :
    (emptyLCD 1).buffer_pos = 0 ∧
    (flush (runCalls smallHeader (emptyLCD 1) [.cmd 1, .data 2, .cmd 3])).spi
      = [[1, 258], [3]] ∧
    (flush (runCalls smallHeader (emptyLCD 1) [.cmd 1, .data 2, .cmd 3])).spi.flatten
      = (emptyLCD 1).spi.flatten ++ [Call.cmd 1, Call.data 2, Call.cmd 3].map Call.word :=
  ⟨rfl, by decide,
    send_calls_then_flush_in_order smallHeader (emptyLCD 1) [.cmd 1, .data 2, .cmd 3] rfl⟩

/-- Two calls on a 64-symbol buffer cause no write; one call fills nothing of a two-symbol
buffer and a second one triggers the write. -/
theorem no_write_until_capacity_or_flush_witness :
    (emptyLCD 1).buffer_pos = 0 ∧
    (runCalls sampleHeader (emptyLCD 1) [.cmd 1, .data 2]).spi = [] ∧
    (runCalls smallHeader (emptyLCD 1) ([.cmd 1] ++ [.data 2])).spi = [[1, 258]] :=
  ⟨rfl,
    ((no_write_until_capacity_or_flush sampleHeader (emptyLCD 1) [.cmd 1, .data 2] rfl).1
      (by decide)).1,
    (no_write_until_capacity_or_flush smallHeader (emptyLCD 1) [.cmd 1] rfl).2 (.data 2) rfl⟩

/-- The byte `0xA5` as data and as command. -/
theorem tagged_symbol_of_byte_witness :
    (0xA5 : Nat) < 256 ∧
    stream (send_data sampleHeader (emptyLCD 1) (0xA5 : Nat))
      = stream (emptyLCD 1) ++ [0xA5 + 256] ∧
    stream (send_cmd sampleHeader (emptyLCD 1) (0xA5 : Nat)) = stream (emptyLCD 1) ++ [0xA5] :=
  ⟨by decide, (tagged_symbol_of_byte sampleHeader (emptyLCD 1) 0xA5 (by decide)).1.1,
    (tagged_symbol_of_byte sampleHeader (emptyLCD 1) 0xA5 (by decide)).2.1⟩

/-- A mixed sequence of operations on a two-symbol buffer. -/
theorem buffer_pos_invariant_witness :
    1 ≤ smallHeader.MAX_BUFFER_SIZE ∧ (emptyLCD 1).buffer_pos = 0 ∧ (emptyLCD 1).spi = [] ∧
    (runOps smallHeader (emptyLCD 1) [.send 5, .send_cmd 1, .flush, .send_data 2]).buffer_pos
      < smallHeader.MAX_BUFFER_SIZE :=
  ⟨by decide, rfl, rfl,
    (buffer_pos_invariant smallHeader (emptyLCD 1) [.send 5, .send_cmd 1, .flush, .send_data 2]
      (by decide) rfl rfl).2.1⟩

/-- The example pixel on the sample Philips driver. -/
theorem set_pixel_philips_example_witness :
    sampleHeader.TYPE_EPSON ≠ sampleHeader.TYPE_PHILIPS ∧
    (emptyLCD sampleHeader.TYPE_PHILIPS).type = sampleHeader.TYPE_PHILIPS ∧
    (emptyLCD sampleHeader.TYPE_PHILIPS).buffer_pos = 0 ∧
    (lcd_set_pixel sampleHeader (emptyLCD sampleHeader.TYPE_PHILIPS) 5 10 0x0F0).spi.flatten
      = (emptyLCD sampleHeader.TYPE_PHILIPS).spi.flatten ++
        [u8 sampleHeader.PASETP, 5 + 256, 5 + 256, u8 sampleHeader.CASETP, 10 + 256, 10 + 256,
          u8 sampleHeader.RAMWRP, 0x0F + 256, 0x00 + 256] :=
  ⟨by decide, rfl, rfl,
    set_pixel_philips_example sampleHeader (emptyLCD sampleHeader.TYPE_PHILIPS) (by decide)
      rfl rfl⟩

/-- The pixel `(131, 7)` with colour `0xABC` on the sample Philips driver. -/
theorem set_pixel_philips_transaction_witness :
    sampleHeader.TYPE_EPSON ≠ sampleHeader.TYPE_PHILIPS ∧
    (emptyLCD sampleHeader.TYPE_PHILIPS).type = sampleHeader.TYPE_PHILIPS ∧
    (emptyLCD sampleHeader.TYPE_PHILIPS).buffer_pos = 0 ∧
    (131 : Nat) < 256 ∧ (7 : Nat) < 256 ∧ (0xABC : Nat) < 65536 ∧
    (lcd_set_pixel sampleHeader (emptyLCD sampleHeader.TYPE_PHILIPS)
        (131 : Nat) (7 : Nat) (0xABC : Nat)).spi.flatten
      = (emptyLCD sampleHeader.TYPE_PHILIPS).spi.flatten ++
        [u8 sampleHeader.PASETP, 131 + 256, 131 + 256, u8 sampleHeader.CASETP, 7 + 256,
          7 + 256, u8 sampleHeader.RAMWRP, ((0xABC >>> 4) &&& 0xFF) + 256,
          (((0xABC &&& 0xF) <<< 4) &&& 0xFF) + 256] :=
  ⟨by decide, rfl, rfl, by decide, by decide, by decide,
    (set_pixel_philips_transaction sampleHeader (emptyLCD sampleHeader.TYPE_PHILIPS) 131 7
      0xABC (by decide) rfl rfl (by decide) (by decide) (by decide)).1⟩

/-- Clearing the sample Epson driver with colour `0xFFF`. -/
theorem lcd_clear_stream_witness :
    (emptyLCD sampleHeader.TYPE_EPSON).buffer_pos = 0 ∧
    (emptyLCD sampleHeader.TYPE_EPSON).type = sampleHeader.TYPE_EPSON ∧
    (lcd_clear sampleHeader (emptyLCD sampleHeader.TYPE_EPSON) 0xFFF).spi.flatten
      = (emptyLCD sampleHeader.TYPE_EPSON).spi.flatten ++
        [u8 sampleHeader.PASET, 0 + 256, 132 + 256, u8 sampleHeader.CASET, 0 + 256, 132 + 256,
          u8 sampleHeader.RAMWR] ++
        (List.replicate 8712 [0xFF + 256, 0xFF + 256, 0xFF + 256]).flatten :=
  ⟨rfl, rfl,
    (lcd_clear_stream sampleHeader (emptyLCD sampleHeader.TYPE_EPSON) 0xFFF rfl).2.2.2 rfl⟩

/-- A circle of radius zero at `(30, 40)` on the sample Philips driver. -/
theorem draw_circle_radius_zero_witness :
    (30 : Nat) < 256 ∧ (40 : Nat) < 256 ∧ (7 : Nat) < 65536 ∧
    (lcd_draw_circle sampleHeader (emptyLCD sampleHeader.TYPE_PHILIPS)
        (30 : Nat) (40 : Nat) 0 (7 : Nat)).map
        (newPixels (emptyLCD sampleHeader.TYPE_PHILIPS))
      = some [(30, 40, 7), (30, 40, 7), (30, 40, 7), (30, 40, 7)] :=
  ⟨by decide, by decide, by decide,
    (draw_circle_radius_zero sampleHeader (emptyLCD sampleHeader.TYPE_PHILIPS) 30 40 7
      (by decide) (by decide) (by decide)).1⟩

/-! ## The transport's outcome and the empty flush: claims C12 and C13 -/

theorem flush_r_eq (env : Nat → SpiResult) (lcd : LCD) : flush_r env lcd = ((), flush lcd) :=
  rfl

theorem send_r_eq (env : Nat → SpiResult) (cfg : Header) (lcd : LCD) (w : Nat) :
    send_r env cfg lcd w = ((), send cfg lcd w) := by
  unfold send_r send
  simp only
  split <;> rfl

theorem send_cmd_r_eq (env : Nat → SpiResult) (cfg : Header) (lcd : LCD) (b : Int) :
    send_cmd_r env cfg lcd b = ((), send_cmd cfg lcd b) := by
  simp only [send_cmd_r, send_cmd, send_r_eq]

theorem send_data_r_eq (env : Nat → SpiResult) (cfg : Header) (lcd : LCD) (b : Int) :
    send_data_r env cfg lcd b = ((), send_data cfg lcd b) := by
  simp only [send_data_r, send_data, send_r_eq]

theorem lcd_set_pixel_r_eq (env : Nat → SpiResult) (cfg : Header) (lcd : LCD)
    (x y color : Int) :
    lcd_set_pixel_r env cfg lcd x y color = ((), lcd_set_pixel cfg lcd x y color) := by
  simp only [lcd_set_pixel_r, lcd_set_pixel, set_pixel_epson, set_pixel_philips,
    send_cmd_r_eq, send_data_r_eq, flush_r_eq]

theorem lcd_clear_loop_r_eq (env : Nat → SpiResult) (cfg : Header) (color : Int) (n : Nat) :
    ∀ lcd : LCD, lcd_clear_loop_r env cfg color n lcd = lcd_clear_loop cfg color n lcd := by
  induction n with
  | zero => intro lcd; rfl
  | succ n ih =>
    intro lcd
    simp only [lcd_clear_loop_r, lcd_clear_loop, send_data_r_eq, ih]

theorem lcd_clear_r_eq (env : Nat → SpiResult) (cfg : Header) (lcd : LCD) (color : Int) :
    lcd_clear_r env cfg lcd color = ((), lcd_clear cfg lcd color) := by
  unfold lcd_clear_r lcd_clear
  generalize (132 * 132) / 2 = n
  simp only [send_cmd_r_eq, send_data_r_eq, flush_r_eq, lcd_clear_loop_r_eq]

/-- C12 as stated fails: with a transport whose every write fails, `flush` and `set_pixel`
return the same (empty) result and leave the same fill position as with a transport whose
every write succeeds. -/
theorem write_failure_not_surfaced_example :
    (spi_send_buffer_r failingEnv (emptyLCD sampleHeader.TYPE_PHILIPS) 0
        (emptyLCD sampleHeader.TYPE_PHILIPS).buffer).1 = SpiResult.error (-1) ∧
    (flush_r failingEnv (emptyLCD sampleHeader.TYPE_PHILIPS)).1
      = (flush_r okEnv (emptyLCD sampleHeader.TYPE_PHILIPS)).1 ∧
    (lcd_set_pixel_r failingEnv sampleHeader (emptyLCD sampleHeader.TYPE_PHILIPS) 5 10 0x0F0).1
      = (lcd_set_pixel_r okEnv sampleHeader (emptyLCD sampleHeader.TYPE_PHILIPS) 5 10 0x0F0).1 ∧
    (lcd_set_pixel_r failingEnv sampleHeader (emptyLCD sampleHeader.TYPE_PHILIPS) 5 10
        0x0F0).2.buffer_pos
      = (lcd_set_pixel_r okEnv sampleHeader (emptyLCD sampleHeader.TYPE_PHILIPS) 5 10
        0x0F0).2.buffer_pos :=
  ⟨rfl, rfl, rfl, rfl⟩

/-- C12 amended: a failure of the transport write is not surfaced. Whatever outcomes the
transport reports, `flush`, `set_pixel` and `clear` return no value and leave the driver in
the state the outcome-free model computes, hence the same state for a failing and for a
succeeding transport; the fill position after `flush` is zero in every case. -/
theorem write_outcome_ignored (env env' : Nat → SpiResult) (cfg : Header) (lcd : LCD)
    (x y color : Int) :
    flush_r env lcd = ((), flush lcd) ∧
    lcd_set_pixel_r env cfg lcd x y color = ((), lcd_set_pixel cfg lcd x y color) ∧
    lcd_clear_r env cfg lcd color = ((), lcd_clear cfg lcd color) ∧
    flush_r env lcd = flush_r env' lcd ∧
    lcd_set_pixel_r env cfg lcd x y color = lcd_set_pixel_r env' cfg lcd x y color ∧
    lcd_clear_r env cfg lcd color = lcd_clear_r env' cfg lcd color ∧
    (flush_r env lcd).2.buffer_pos = 0 ∧
    (lcd_set_pixel_r env cfg lcd x y color).2.buffer_pos = 0 ∧
    (lcd_clear_r env cfg lcd color).2.buffer_pos = 0 := by
  refine ⟨flush_r_eq env lcd, lcd_set_pixel_r_eq env cfg lcd x y color,
    lcd_clear_r_eq env cfg lcd color, ?_, ?_, ?_, rfl, ?_, ?_⟩
  · rw [flush_r_eq, flush_r_eq]
  · rw [lcd_set_pixel_r_eq, lcd_set_pixel_r_eq]
  · rw [lcd_clear_r_eq, lcd_clear_r_eq]
  · rw [lcd_set_pixel_r_eq]; rfl
  · rw [lcd_clear_r_eq]; rfl

/-- C13 as stated fails: `flush` on the empty buffer of a fresh driver makes a transport
write (of zero symbols), and a second `flush` makes one more. -/
theorem flush_empty_still_writes :
    (emptyLCD sampleHeader.TYPE_PHILIPS).buffer_pos = 0 ∧
    (flush (emptyLCD sampleHeader.TYPE_PHILIPS)).spi = [[]] ∧
    (flush (emptyLCD sampleHeader.TYPE_PHILIPS)).spi ≠ (emptyLCD sampleHeader.TYPE_PHILIPS).spi ∧
    (flush (flush (emptyLCD sampleHeader.TYPE_PHILIPS))).spi
      ≠ (flush (emptyLCD sampleHeader.TYPE_PHILIPS)).spi := by
  decide

/-- C13 amended: `flush` on an empty buffer transmits no symbol and leaves the buffer, the
fill position, the controller type and the call log unchanged, but it still performs one
transport write, of zero symbols; two flushes in a row perform two such writes, one more than
a single flush, and the transmitted symbol stream is the same. -/
theorem flush_empty_writes_empty_block (lcd : LCD) (h0 : lcd.buffer_pos = 0) :
    (flush lcd).spi = lcd.spi ++ [[]] ∧
    (flush lcd).buffer_pos = 0 ∧ (flush lcd).buffer = lcd.buffer ∧
    (flush lcd).type = lcd.type ∧ (flush lcd).pixels = lcd.pixels ∧
    (flush (flush lcd)).spi = lcd.spi ++ [[], []] ∧
    (flush lcd).spi.flatten = lcd.spi.flatten ∧
    (flush (flush lcd)).spi.flatten = (flush lcd).spi.flatten := by
  simp [flush, spi_send_buffer, h0]

/-! ## Epson colour packing: claim C18 -/

theorem stream_set_pixel_epson (cfg : Header) (lcd : LCD) (x y color : Nat) :
    stream (set_pixel_epson cfg lcd x y color) = stream lcd ++
      [u8 cfg.PASET, x % 256 + 256, u8 cfg.ENDPAGE + 256, u8 cfg.CASET, y % 256 + 256,
        u8 cfg.ENDCOL + 256, u8 cfg.RAMWR, ((color >>> 4) &&& 0xFF) % 256 + 256,
        (((color &&& 0xF) <<< 4) ||| (color >>> 8)) % 256 + 256,
        (color &&& 0xFF) % 256 + 256] := by
  simp only [set_pixel_epson, stream_send_cmd, stream_send_data, u8_natCast,
    List.append_assoc, List.singleton_append, List.cons_append, List.nil_append]

/-- The three Epson bytes of a 12-bit colour, in arithmetic form. -/
theorem epson_bytes (c : Nat) (hc : c < 4096) :
    (c >>> 4) &&& 0xFF = c / 16 ∧
    ((c &&& 0xF) <<< 4) ||| (c >>> 8) = c % 16 * 16 + c / 256 ∧
    c &&& 0xFF = c % 256 := by
  have h1 := Nat.and_pow_two_sub_one_eq_mod (c >>> 4) 8
  have h2 := Nat.and_pow_two_sub_one_eq_mod c 4
  have h3 := Nat.and_pow_two_sub_one_eq_mod c 8
  have h4 : c >>> 4 = c / 16 := by rw [Nat.shiftRight_eq_div_pow]
  have h5 : c >>> 8 = c / 256 := by rw [Nat.shiftRight_eq_div_pow]
  have h6 : c / 256 < 2 ^ 4 := by simp only [Nat.reducePow]; omega
  have h7 := Nat.mul_add_lt_is_or h6 (c % 16)
  simp only [Nat.reducePow, Nat.add_one_sub_one] at h1 h2 h3 h7
  refine ⟨by rw [h1, h4]; omega, ?_, h3⟩
  rw [h2, h5, Nat.shiftLeft_eq, show c % 16 * 2 ^ 4 = 16 * (c % 16) by omega, ← h7]
  omega

theorem clear_pattern_of_nat (c : Nat) :
    clear_pattern (c : Int) =
      [((c >>> 4) &&& 0xFF) % 256 + 256,
        (((c &&& 0xF) <<< 4) ||| (c >>> 8)) % 256 + 256,
        (c &&& 0xFF) % 256 + 256] := by
  have e1 : Int.land ((c : Int) >>> 4) 0xFF = (((c >>> 4) &&& 0xFF : Nat) : Int) := rfl
  have e2 : Int.lor (Int.land (c : Int) 0x0F <<< 4) ((c : Int) >>> 8)
      = ((((c &&& 0xF) <<< 4) ||| (c >>> 8) : Nat) : Int) := by
    have a : Int.land (c : Int) 0x0F = ((c &&& 0xF : Nat) : Int) := rfl
    have b : (((c &&& 0xF : Nat) : Int) <<< (4 : Int)) = (((c &&& 0xF) <<< 4 : Nat) : Int) :=
      Int.shiftLeft_coe_nat _ 4
    have d : (c : Int) >>> 8 = ((c >>> 8 : Nat) : Int) := rfl
    rw [a, d]
    erw [b]
    rfl
  have e3 : Int.land (c : Int) 0x0FF = ((c &&& 0xFF : Nat) : Int) := rfl
  simp only [clear_pattern, e1, e2, e3, u8_natCast]

/-- C18: for bytes `x`, `y` and a 12-bit colour `c`, `set_pixel` on an Epson driver with an
empty buffer transmits exactly ten symbols: command PASET, data `x`, data ENDPAGE, command
CASET, data `y`, data ENDCOL, command RAMWR and three data bytes `b0 = c / 16`,
`b1 = (c mod 16) * 16 + c / 256`, `b2 = c mod 256`, which satisfy
`b0 * 65536 + b1 * 256 + b2 = c * 4096 + c`; `lcd_clear` streams the same three bytes, 8712
times, for the same `c`. -/
theorem epson_packing_two_copies (cfg : Header) (lcd : LCD) (x y c : Nat)
    (ht : lcd.type = cfg.TYPE_EPSON) (h0 : lcd.buffer_pos = 0)
    (hx : x < 256) (hy : y < 256) (hc : c < 4096) :
    (lcd_set_pixel cfg lcd x y c).spi.flatten = lcd.spi.flatten ++
      [u8 cfg.PASET, x + 256, u8 cfg.ENDPAGE + 256, u8 cfg.CASET, y + 256,
        u8 cfg.ENDCOL + 256, u8 cfg.RAMWR,
        c / 16 + 256, (c % 16 * 16 + c / 256) + 256, c % 256 + 256] ∧
    (c / 16 < 256 ∧ c % 16 * 16 + c / 256 < 256 ∧ c % 256 < 256) ∧
    (c / 16) * 65536 + (c % 16 * 16 + c / 256) * 256 + c % 256 = c * 4096 + c ∧
    (lcd_clear cfg lcd c).spi.flatten = lcd.spi.flatten ++
      [u8 cfg.PASET, 0 + 256, 132 + 256, u8 cfg.CASET, 0 + 256, 132 + 256, u8 cfg.RAMWR] ++
      (List.replicate 8712
        [c / 16 + 256, (c % 16 * 16 + c / 256) + 256, c % 256 + 256]).flatten := by
  obtain ⟨b0, b1, b2⟩ := epson_bytes c hc
  have m0 : c / 16 % 256 = c / 16 := by omega
  have m1 : (c % 16 * 16 + c / 256) % 256 = c % 16 * 16 + c / 256 := by omega
  have m2 : c % 256 % 256 = c % 256 := by omega
  refine ⟨?_, ⟨by omega, by omega, by omega⟩, by omega, ?_⟩
  · have hx' : x % 256 = x := Nat.mod_eq_of_lt hx
    have hy' : y % 256 = y := Nat.mod_eq_of_lt hy
    unfold lcd_set_pixel
    simp only
    rw [if_pos ht, flush_spi_flatten, stream_set_pixel_epson, u8_of_lt x hx, u8_of_lt y hy,
      u16_of_lt c (by omega), b0, b1, b2, m0, m1, m2, hx', hy']
    simp [stream, h0]
  · have h := lcd_clear_spi cfg lcd (c : Int) h0
    have hn : (132 * 132) / 2 = 8712 := rfl
    rw [clear_pattern_of_nat, b0, b1, b2, m0, m1, m2, hn] at h
    rw [h]
    simp only [ht, if_true]

/-! ## The walk of `lcd_draw_br_line`: claim C19 -/

theorem u8_sub_u8 (a b : Int) : u8 ((u8 a : Int) - (u8 b : Int)) = u8 (a - b) := by
  unfold u8; omega

theorem walk_cons (steep : Bool) (d x : Nat) (p : Nat × Nat)
    (o : Option (List (Nat × Nat))) (hp : (if steep then p.2 else p.1) = x) (hx : x < 256)
    (h : ∃ ps, o = some ps ∧ ps.map (fun q => if steep then q.2 else q.1)
      = (List.range d).map (fun k => (u8 ((x : Int) + (1 : Nat)) + k) % 256)) :
    ∃ ps, o.map (fun ps => p :: ps) = some ps ∧
      ps.map (fun q => if steep then q.2 else q.1)
        = (List.range (d + 1)).map (fun k => (x + k) % 256) := by
  obtain ⟨ps, rfl, hmap⟩ := h
  refine ⟨p :: ps, rfl, ?_⟩
  rw [List.map_cons, hmap, hp, List.range_succ_eq_map, List.map_cons, List.map_map]
  congr 1
  · omega
  · apply List.map_congr_left
    intro k _
    simp only [Function.comp, u8]
    omega

/-- With step `+1` the walk from `x` to `x1` returns after `(x1 - x) mod 256` points, the
`k`-th having walk coordinate `(x + k) mod 256`. -/
theorem br_line_loop_points_walk (steep : Bool) (x1 ystep TwoDy TwoDyTwoDx : Nat)
    (hx1 : x1 < 256) (d : Nat) :
    ∀ (fuel x y E : Nat), x < 256 → u8 ((x1 : Int) - x) = d → d < fuel →
      ∃ ps, br_line_loop_points steep x1 1 ystep TwoDy TwoDyTwoDx fuel x y E = some ps ∧
        ps.map (fun q => if steep then q.2 else q.1)
          = (List.range d).map (fun k => (x + k) % 256) := by
  induction d with
  | zero =>
    intro fuel x y E hx hd hf
    obtain ⟨f, rfl⟩ : ∃ f, fuel = f + 1 := ⟨fuel - 1, by omega⟩
    have hxe : x = x1 := by unfold u8 at hd; omega
    refine ⟨[], ?_, by simp⟩
    simp [br_line_loop_points, hxe]
  | succ d ih =>
    intro fuel x y E hx hd hf
    obtain ⟨f, rfl⟩ : ∃ f, fuel = f + 1 := ⟨fuel - 1, by omega⟩
    have hne : x ≠ x1 := by unfold u8 at hd; omega
    have hx' : u8 ((x : Int) + (1 : Nat)) < 256 := u8_lt _
    have hd' : u8 ((x1 : Int) - (u8 ((x : Int) + (1 : Nat)) : Nat)) = d := by
      unfold u8 at hd ⊢; omega
    simp only [br_line_loop_points, ne_eq, hne, not_false_eq_true, if_true]
    refine walk_cons steep d x _ _ ?_ hx ?_
    · cases steep <;> rfl
    · exact ih f _ _ _ hx' hd' (by omega)

/-- The control flow of `lcd_draw_br_line` always returns: it yields `max(Dx, Dy)` points
whose walk coordinates count up from the start modulo 256. -/
theorem br_line_points_walk (x0 y0 x1 y1 : Int) :
    ∃ ps, br_line_points x0 y0 x1 y1 = some ps ∧
      ps.map (fun q => if u8 (y1 - y0) ≥ u8 (x1 - x0) then q.2 else q.1)
        = (List.range (max (u8 (x1 - x0)) (u8 (y1 - y0)))).map
            (fun k => ((if u8 (y1 - y0) ≥ u8 (x1 - x0) then u8 y0 else u8 x0) + k) % 256) := by
  have hDx := u8_lt (x1 - x0)
  have hDy := u8_lt (y1 - y0)
  have e1 : u8 1 = 1 := rfl
  have hn : ∀ n : Nat, ¬ ((n : Int) < 0) := fun n => by omega
  unfold br_line_points
  simp only [u8_sub_u8, Int.natAbs_ofNat, hn, if_false, e1]
  by_cases hs : u8 (y1 - y0) ≥ u8 (x1 - x0)
  · simp only [hs, decide_True, if_true, max_eq_right hs]
    exact br_line_loop_points_walk true (u8 y1) _ _ _ (u8_lt _) _ _ _ _ _ (u8_lt _)
      (u8_sub_u8 y1 y0) (by omega)
  · have hs' : u8 (y1 - y0) ≤ u8 (x1 - x0) := by omega
    simp only [hs, decide_False, if_false, max_eq_left hs', Bool.false_eq_true]
    exact br_line_loop_points_walk false (u8 x1) _ _ _ (u8_lt _) _ _ _ _ _ (u8_lt _)
      (u8_sub_u8 x1 x0) (by omega)

theorem lcd_draw_br_line_isSome (cfg : Header) (lcd : LCD) (x0 y0 x1 y1 c : Int) :
    (lcd_draw_br_line cfg lcd x0 y0 x1 y1 c).isSome = true := by
  obtain ⟨ps, hps, _⟩ := br_line_points_walk x0 y0 x1 y1
  rw [lcd_draw_br_line_eq, hps]
  rfl

/-- C19: for every input, the arguments being converted to 8 bits, with
`Dx = (x1 - x0) mod 256` and `Dy = (y1 - y0) mod 256`, `draw_line` returns after exactly
`max(Dx, Dy)` `set_pixel` calls (at most 255); the `k`-th call has walk coordinate
`(start + k) mod 256`, the walk axis being `y` when `Dy >= Dx` and `x` otherwise, so the walk
always steps by `+1`; the end point `(x1, y1)` is never plotted. -/
theorem draw_line_walk (cfg : Header) (lcd : LCD) (x0 y0 x1 y1 c : Int) :
    ∃ lcd', lcd_draw_br_line cfg lcd x0 y0 x1 y1 c = some lcd' ∧
      (newPixels lcd lcd').length = max (u8 (x1 - x0)) (u8 (y1 - y0)) ∧
      max (u8 (x1 - x0)) (u8 (y1 - y0)) ≤ 255 ∧
      (newPixels lcd lcd').map (fun p => if u8 (y1 - y0) ≥ u8 (x1 - x0) then p.2.1 else p.1)
        = (List.range (max (u8 (x1 - x0)) (u8 (y1 - y0)))).map
            (fun k => ((if u8 (y1 - y0) ≥ u8 (x1 - x0) then u8 y0 else u8 x0) + k) % 256) ∧
      (u8 x1, u8 y1) ∉ plotted lcd (some lcd') := by
  obtain ⟨ps, hps, hmap⟩ := br_line_points_walk x0 y0 x1 y1
  have hDx := u8_lt (x1 - x0)
  have hDy := u8_lt (y1 - y0)
  have hnew : newPixels lcd (plotAll cfg (u16 c) lcd ps)
      = ps.map (fun p => (u8 p.1, u8 p.2, u16 (u16 c))) :=
    newPixels_append lcd _ _ (plotAll_pixels cfg (u16 c) ps lcd)
  have hwalk : (newPixels lcd (plotAll cfg (u16 c) lcd ps)).map
        (fun p => if u8 (y1 - y0) ≥ u8 (x1 - x0) then p.2.1 else p.1)
      = (List.range (max (u8 (x1 - x0)) (u8 (y1 - y0)))).map
          (fun k => ((if u8 (y1 - y0) ≥ u8 (x1 - x0) then u8 y0 else u8 x0) + k) % 256) := by
    have h2 := congrArg (List.map (fun n : Nat => u8 (n : Int))) hmap
    rw [List.map_map, List.map_map] at h2
    rw [hnew, List.map_map]
    have e1 : ((fun p : Nat × Nat × Nat =>
          if u8 (y1 - y0) ≥ u8 (x1 - x0) then p.2.1 else p.1) ∘
          fun p : Nat × Nat => (u8 (p.1 : Int), u8 (p.2 : Int), u16 (u16 c)))
        = ((fun n : Nat => u8 (n : Int)) ∘ fun q : Nat × Nat =>
          if u8 (y1 - y0) ≥ u8 (x1 - x0) then q.2 else q.1) := by
      funext p
      simp only [Function.comp]
      split <;> rfl
    rw [e1, h2]
    apply List.map_congr_left
    intro k _
    simp only [Function.comp, u8_natCast, Nat.mod_mod]
  refine ⟨plotAll cfg (u16 c) lcd ps, ?_, ?_, by omega, hwalk, ?_⟩
  · rw [lcd_draw_br_line_eq, hps]; rfl
  · have := congrArg List.length hwalk
    simpa using this
  · intro hmem
    simp only [plotted, List.mem_map] at hmem
    obtain ⟨p, hp, hpe⟩ := hmem
    have hw : (if u8 (y1 - y0) ≥ u8 (x1 - x0) then p.2.1 else p.1)
        ∈ (List.range (max (u8 (x1 - x0)) (u8 (y1 - y0)))).map
          (fun k => ((if u8 (y1 - y0) ≥ u8 (x1 - x0) then u8 y0 else u8 x0) + k) % 256) := by
      rw [← hwalk]
      exact List.mem_map.mpr ⟨p, hp, rfl⟩
    obtain ⟨k, hk, hke⟩ := List.mem_map.mp hw
    have hk' := List.mem_range.mp hk
    have h1 : p.1 = u8 x1 := congrArg Prod.fst hpe
    have h2 : p.2.1 = u8 y1 := congrArg Prod.snd hpe
    rw [h1, h2] at hke
    by_cases hs : u8 (y1 - y0) ≥ u8 (x1 - x0)
    · rw [if_pos hs, if_pos hs] at hke
      rw [max_eq_right hs] at hk'
      unfold u8 at hk' hke
      omega
    · rw [if_neg hs, if_neg hs] at hke
      rw [max_eq_left (by omega)] at hk'
      unfold u8 at hk' hke
      omega

/-! ## The row loop of the rectangles: claim C20 -/

theorem fill_loop_none (cfg : Header) (x0 y0 width height color : Nat)
    (h : 256 ≤ y0 + height) :
    ∀ (fuel : Nat) (lcd : LCD) (i : Nat), i < 256 →
      lcd_fill_rectangle_loop cfg x0 y0 width height color fuel lcd i = none := by
  intro fuel
  induction fuel with
  | zero => intro lcd i _; rfl
  | succ fuel ih =>
    intro lcd i hi
    rw [lcd_fill_rectangle_loop, if_pos (by omega)]
    split
    · rfl
    · exact ih _ _ (u8_lt _)

theorem draw_loop_none (cfg : Header) (x0 y0 width height color : Nat)
    (h : 256 ≤ y0 + height) :
    ∀ (fuel : Nat) (lcd : LCD) (i : Nat), i < 256 →
      lcd_draw_rectangle_loop cfg x0 y0 width height color fuel lcd i = none := by
  intro fuel
  induction fuel with
  | zero => intro lcd i _; rfl
  | succ fuel ih =>
    intro lcd i hi
    rw [lcd_draw_rectangle_loop, if_pos (by omega)]
    exact ih _ _ (u8_lt _)

theorem fill_loop_isSome (cfg : Header) (x0 y0 width height color : Nat)
    (h : y0 + height ≤ 255) :
    ∀ (n : Nat) (lcd : LCD) (i : Nat), y0 + height ≤ i + n →
      (lcd_fill_rectangle_loop cfg x0 y0 width height color (n + 1) lcd i).isSome = true := by
  intro n
  induction n with
  | zero =>
    intro lcd i hle
    rw [lcd_fill_rectangle_loop, if_neg (by omega)]
    rfl
  | succ n ih =>
    intro lcd i hle
    rw [lcd_fill_rectangle_loop]
    split
    · rename_i hlt
      have hs := lcd_draw_br_line_isSome cfg lcd x0 i ((x0 : Int) + width) i color
      split
      · rename_i hnone
        rw [hnone] at hs
        exact absurd hs (by simp)
      · have hi : u8 ((i : Int) + 1) = i + 1 := by unfold u8; omega
        rw [hi]
        exact ih _ _ (by omega)
    · rfl

theorem draw_loop_isSome (cfg : Header) (x0 y0 width height color : Nat)
    (h : y0 + height ≤ 255) :
    ∀ (n : Nat) (lcd : LCD) (i : Nat), y0 + height ≤ i + n →
      (lcd_draw_rectangle_loop cfg x0 y0 width height color (n + 1) lcd i).isSome = true := by
  intro n
  induction n with
  | zero =>
    intro lcd i hle
    rw [lcd_draw_rectangle_loop, if_neg (by omega)]
    rfl
  | succ n ih =>
    intro lcd i hle
    rw [lcd_draw_rectangle_loop]
    split
    · rename_i hlt
      have hi : u8 ((i : Int) + 1) = i + 1 := by unfold u8; omega
      simp only [hi]
      exact ih _ _ (by omega)
    · rfl

/-- C20: the row loop shared by `fill_rectangle` and `draw_rectangle` terminates if and only
if `y0 + height <= 255`. When `y0 + height >= 256` the guard holds for every 8-bit `i`, no
amount of fuel lets either loop return, and both operations diverge; when
`y0 + height <= 255` both loops return within 256 units of fuel, that is after at most 255
iterations, and both operations return. -/
theorem row_loop_terminates_iff (cfg : Header) (lcd : LCD) (x0 y0 width height color : Int) :
    (256 ≤ u8 y0 + u8 height →
      (∀ i : Nat, i < 256 → (i : Int) < (u8 y0 : Int) + (u8 height : Int)) ∧
      (∀ (fuel : Nat) (l : LCD),
        lcd_fill_rectangle_loop cfg (u8 x0) (u8 y0) (u8 width) (u8 height) (u16 color) fuel l
          (u8 ((u8 y0 : Int) + 1)) = none ∧
        lcd_draw_rectangle_loop cfg (u8 x0) (u8 y0) (u8 width) (u8 height) (u16 color) fuel l
          (u8 ((u8 y0 : Int) + 1)) = none) ∧
      lcd_fill_rectangle cfg lcd x0 y0 width height color = none ∧
      lcd_draw_rectangle cfg lcd x0 y0 width height color = none) ∧
    (u8 y0 + u8 height ≤ 255 →
      (∀ l : LCD,
        (lcd_fill_rectangle_loop cfg (u8 x0) (u8 y0) (u8 width) (u8 height) (u16 color) 256 l
          (u8 ((u8 y0 : Int) + 1))).isSome = true ∧
        (lcd_draw_rectangle_loop cfg (u8 x0) (u8 y0) (u8 width) (u8 height) (u16 color) 256 l
          (u8 ((u8 y0 : Int) + 1))).isSome = true) ∧
      (lcd_fill_rectangle cfg lcd x0 y0 width height color).isSome = true ∧
      (lcd_draw_rectangle cfg lcd x0 y0 width height color).isSome = true) := by
  constructor
  · intro h
    have hf := fill_loop_none cfg (u8 x0) (u8 y0) (u8 width) (u8 height) (u16 color) h
    have hd := draw_loop_none cfg (u8 x0) (u8 y0) (u8 width) (u8 height) (u16 color) h
    refine ⟨fun i hi => by omega, fun fuel l => ⟨hf fuel l _ (u8_lt _), hd fuel l _ (u8_lt _)⟩,
      hf 256 lcd _ (u8_lt _), ?_⟩
    unfold lcd_draw_rectangle
    simp only
    split
    · rfl
    · split
      · rfl
      · exact hd 256 _ _ (u8_lt _)
  · intro h
    have hf := fill_loop_isSome cfg (u8 x0) (u8 y0) (u8 width) (u8 height) (u16 color) h 255
    have hd := draw_loop_isSome cfg (u8 x0) (u8 y0) (u8 width) (u8 height) (u16 color) h 255
    refine ⟨fun l => ⟨hf l _ (by omega), hd l _ (by omega)⟩, hf lcd _ (by omega), ?_⟩
    unfold lcd_draw_rectangle
    simp only
    split
    · rename_i hnone
      have hs := lcd_draw_br_line_isSome cfg lcd (u8 x0) (u8 y0)
        ((u8 x0 : Int) + (u8 width : Int) + 1) (u8 y0) (u16 color)
      rw [hnone] at hs
      exact absurd hs (by simp)
    · rename_i l1 _
      split
      · rename_i hnone
        have hs := lcd_draw_br_line_isSome cfg l1 (u8 x0) ((u8 y0 : Int) + (u8 height : Int))
          ((u8 x0 : Int) + (u8 width : Int) + 1) ((u8 y0 : Int) + (u8 height : Int))
          (u16 color)
        rw [hnone] at hs
        exact absurd hs (by simp)
      · exact hd _ _ (by omega)

/-! ## Eight-fold symmetry of `lcd_draw_circle`: claim C16 -/

theorem closed8_nil (x0 y0 : Nat) : Closed8 x0 y0 [] := by
  intro dx dy h
  simp at h

theorem closed8_append (x0 y0 : Nat) (A B : List (Nat × Nat))
    (hA : Closed8 x0 y0 A) (hB : Closed8 x0 y0 B) : Closed8 x0 y0 (A ++ B) := by
  intro dx dy h
  rcases List.mem_append.mp h with h | h
  · obtain ⟨h1, h2, h3⟩ := hA dx dy h
    exact ⟨List.mem_append_left _ h1, List.mem_append_left _ h2, List.mem_append_left _ h3⟩
  · obtain ⟨h1, h2, h3⟩ := hB dx dy h
    exact ⟨List.mem_append_right _ h1, List.mem_append_right _ h2,
      List.mem_append_right _ h3⟩

theorem u8_neg_of_add {z d e : Int} (h : u8 (z + d) = u8 (z + e)) :
    u8 (z - d) = u8 (z - e) := by
  unfold u8 at h ⊢; omega

theorem u8_neg_of_sub {z d e : Int} (h : u8 (z + d) = u8 (z - e)) :
    u8 (z - d) = u8 (z + e) := by
  unfold u8 at h ⊢; omega

theorem u8_move_of_add {z d e : Int} (w : Int) (h : u8 (z + d) = u8 (z + e)) :
    u8 (w + d) = u8 (w + e) := by
  unfold u8 at h ⊢; omega

theorem u8_move_of_sub {z d e : Int} (w : Int) (h : u8 (z + d) = u8 (z - e)) :
    u8 (w + d) = u8 (w - e) := by
  unfold u8 at h ⊢; omega

/-- The eight points plotted by one iteration are closed under the three reflections. -/
theorem closed8_octants (x0 y0 a b : Nat) :
    Closed8 x0 y0
      [(u8 ((x0 : Int) + a), u8 ((y0 : Int) + b)), (u8 ((x0 : Int) - a), u8 ((y0 : Int) + b)),
        (u8 ((x0 : Int) + a), u8 ((y0 : Int) - b)), (u8 ((x0 : Int) - a), u8 ((y0 : Int) - b)),
        (u8 ((x0 : Int) + b), u8 ((y0 : Int) + a)), (u8 ((x0 : Int) - b), u8 ((y0 : Int) + a)),
        (u8 ((x0 : Int) + b), u8 ((y0 : Int) - a)),
        (u8 ((x0 : Int) - b), u8 ((y0 : Int) - a))] := by
  intro dx dy h
  simp only [List.mem_cons, Prod.mk.injEq, List.mem_singleton, List.not_mem_nil,
    or_false] at h ⊢
  rcases h with h | h | h | h | h | h | h | h
  · exact ⟨Or.inr (Or.inl ⟨(u8_neg_of_add h.1), h.2⟩),
      Or.inr (Or.inr (Or.inl ⟨h.1, (u8_neg_of_add h.2)⟩)),
      Or.inr (Or.inr (Or.inr (Or.inr (Or.inl ⟨(u8_move_of_add _ h.2), (u8_move_of_add _ h.1)⟩))))⟩
  · exact ⟨Or.inl ⟨(u8_neg_of_sub h.1), h.2⟩,
      Or.inr (Or.inr (Or.inr (Or.inl ⟨h.1, (u8_neg_of_add h.2)⟩))),
      Or.inr (Or.inr (Or.inr (Or.inr (Or.inr (Or.inr (Or.inl ⟨(u8_move_of_add _ h.2), (u8_move_of_sub _ h.1)⟩))))))⟩
  · exact ⟨Or.inr (Or.inr (Or.inr (Or.inl ⟨(u8_neg_of_add h.1), h.2⟩))),
      Or.inl ⟨h.1, (u8_neg_of_sub h.2)⟩,
      Or.inr (Or.inr (Or.inr (Or.inr (Or.inr (Or.inl ⟨(u8_move_of_sub _ h.2), (u8_move_of_add _ h.1)⟩)))))⟩
  · exact ⟨Or.inr (Or.inr (Or.inl ⟨(u8_neg_of_sub h.1), h.2⟩)),
      Or.inr (Or.inl ⟨h.1, (u8_neg_of_sub h.2)⟩),
      Or.inr (Or.inr (Or.inr (Or.inr (Or.inr (Or.inr (Or.inr ⟨(u8_move_of_sub _ h.2), (u8_move_of_sub _ h.1)⟩))))))⟩
  · exact ⟨Or.inr (Or.inr (Or.inr (Or.inr (Or.inr (Or.inl ⟨(u8_neg_of_add h.1), h.2⟩))))),
      Or.inr (Or.inr (Or.inr (Or.inr (Or.inr (Or.inr (Or.inl ⟨h.1, (u8_neg_of_add h.2)⟩)))))),
      Or.inl ⟨(u8_move_of_add _ h.2), (u8_move_of_add _ h.1)⟩⟩
  · exact ⟨Or.inr (Or.inr (Or.inr (Or.inr (Or.inl ⟨(u8_neg_of_sub h.1), h.2⟩)))),
      Or.inr (Or.inr (Or.inr (Or.inr (Or.inr (Or.inr (Or.inr ⟨h.1, (u8_neg_of_add h.2)⟩)))))),
      Or.inr (Or.inr (Or.inl ⟨(u8_move_of_add _ h.2), (u8_move_of_sub _ h.1)⟩))⟩
  · exact ⟨Or.inr (Or.inr (Or.inr (Or.inr (Or.inr (Or.inr (Or.inr ⟨(u8_neg_of_add h.1), h.2⟩)))))),
      Or.inr (Or.inr (Or.inr (Or.inr (Or.inl ⟨h.1, (u8_neg_of_sub h.2)⟩)))),
      Or.inr (Or.inl ⟨(u8_move_of_sub _ h.2), (u8_move_of_add _ h.1)⟩)⟩
  · exact ⟨Or.inr (Or.inr (Or.inr (Or.inr (Or.inr (Or.inr (Or.inl ⟨(u8_neg_of_sub h.1), h.2⟩)))))),
      Or.inr (Or.inr (Or.inr (Or.inr (Or.inr (Or.inl ⟨h.1, (u8_neg_of_sub h.2)⟩))))),
      Or.inr (Or.inr (Or.inr (Or.inl ⟨(u8_move_of_sub _ h.2), (u8_move_of_sub _ h.1)⟩)))⟩

/-- The four extremal points are closed under the three reflections. -/
theorem closed8_extremal (x0 y0 r : Nat) :
    Closed8 x0 y0
      [(u8 (x0 : Int), u8 ((y0 : Int) + r)), (u8 (x0 : Int), u8 ((y0 : Int) - r)),
        (u8 ((x0 : Int) + r), u8 (y0 : Int)), (u8 ((x0 : Int) - r), u8 (y0 : Int))] := by
  intro dx dy h
  simp only [List.mem_cons, Prod.mk.injEq, List.mem_singleton, List.not_mem_nil, or_false,
    u8] at h ⊢
  rcases h with h | h | h | h <;> refine ⟨?_, ?_, ?_⟩ <;>
    first
    | (apply Or.inl; omega)
    | (apply Or.inr; apply Or.inl; omega)
    | (apply Or.inr; apply Or.inr; apply Or.inl; omega)
    | (apply Or.inr; apply Or.inr; apply Or.inr; omega)

/-- The pixels added by the octant loop are closed under the three reflections. -/
theorem circle_loop_closed8 (cfg : Header) (x0 y0 color : Nat) (fuel : Nat) :
    ∀ (lcd : LCD) (f ddF_x ddF_y x y : Nat) (lcd' : LCD),
      lcd_draw_circle_loop cfg x0 y0 color fuel lcd f ddF_x ddF_y x y = some lcd' →
      ∃ new : List (Nat × Nat × Nat), lcd'.pixels = lcd.pixels ++ new ∧
        Closed8 x0 y0 (new.map (fun p => (p.1, p.2.1))) := by
  induction fuel with
  | zero => intro lcd f ddF_x ddF_y x y lcd' h; simp [lcd_draw_circle_loop] at h
  | succ fuel ih =>
    intro lcd f ddF_x ddF_y x y lcd' h
    rw [lcd_draw_circle_loop] at h
    split at h
    · obtain ⟨new, hnew, hcl⟩ := ih _ _ _ _ _ _ _ h
      simp only [lcd_set_pixel_pixels, List.append_assoc, List.singleton_append,
        List.cons_append, List.nil_append] at hnew
      refine ⟨_, hnew, ?_⟩
      simp only [List.map_cons, List.map_append]
      exact closed8_append x0 y0 _ _
        (closed8_append x0 y0 _ _ (closed8_octants x0 y0 _ _) (closed8_nil x0 y0)) hcl
    · cases h
      exact ⟨[], by simp, closed8_nil x0 y0⟩

/-- The octant loop returns: each iteration moves `x` up and `y` down. -/
theorem circle_loop_isSome (cfg : Header) (x0 y0 color : Nat) (n : Nat) :
    ∀ (lcd : LCD) (f ddF_x ddF_y x y : Nat), y < 256 → y ≤ x + n →
      (lcd_draw_circle_loop cfg x0 y0 color (n + 1) lcd f ddF_x ddF_y x y).isSome = true := by
  induction n with
  | zero =>
    intro lcd f ddF_x ddF_y x y _ hle
    rw [lcd_draw_circle_loop, if_neg (by omega)]
    rfl
  | succ n ih =>
    intro lcd f ddF_x ddF_y x y hy hle
    rw [lcd_draw_circle_loop]
    split
    · rename_i hlt
      have hf : (0 : Int) ≤ (f : Int) := by omega
      have hx' : u8 ((x : Int) + 1) = x + 1 := by unfold u8; omega
      have hy' : u8 ((y : Int) - 1) = y - 1 := by unfold u8; omega
      simp only [hf, if_true, hx', hy']
      exact ih _ _ _ _ _ _ (by omega) (by omega)
    · rfl

/-- C16: `draw_circle` returns for every centre and radius, and the set of pixels it plots is
closed, modulo 256, under negating the horizontal offset from the centre, negating the
vertical offset, and swapping the two offsets. -/
theorem draw_circle_eightfold (cfg : Header) (lcd : LCD) (x0 y0 radius c : Int) :
    ∃ lcd', lcd_draw_circle cfg lcd x0 y0 radius c = some lcd' ∧
      ∀ dx dy : Int,
        (u8 ((u8 x0 : Int) + dx), u8 ((u8 y0 : Int) + dy)) ∈ plotted lcd (some lcd') →
          (u8 ((u8 x0 : Int) - dx), u8 ((u8 y0 : Int) + dy)) ∈ plotted lcd (some lcd') ∧
          (u8 ((u8 x0 : Int) + dx), u8 ((u8 y0 : Int) - dy)) ∈ plotted lcd (some lcd') ∧
          (u8 ((u8 x0 : Int) + dy), u8 ((u8 y0 : Int) + dx)) ∈ plotted lcd (some lcd') := by
  have hs := circle_loop_isSome cfg (u8 x0) (u8 y0) (u16 c) 255
    (lcd_set_pixel cfg (lcd_set_pixel cfg (lcd_set_pixel cfg (lcd_set_pixel cfg lcd
      (u8 x0) ((u8 y0 : Int) + (u8 radius : Int)) (u16 c))
      (u8 x0) ((u8 y0 : Int) - (u8 radius : Int)) (u16 c))
      ((u8 x0 : Int) + (u8 radius : Int)) (u8 y0) (u16 c))
      ((u8 x0 : Int) - (u8 radius : Int)) (u8 y0) (u16 c))
    (u8 (1 - (u8 radius : Int))) (u8 1) (u8 (-2 * (u8 radius : Int))) (u8 0) (u8 radius)
    (u8_lt _) (by have := u8_lt radius; omega)
  obtain ⟨lcd', hl⟩ := Option.isSome_iff_exists.mp hs
  obtain ⟨new, hnew, hcl⟩ := circle_loop_closed8 cfg _ _ _ _ _ _ _ _ _ _ _ hl
  refine ⟨lcd', hl, ?_⟩
  simp only [lcd_set_pixel_pixels, List.append_assoc, List.singleton_append,
    List.cons_append, List.nil_append] at hnew
  have hp : plotted lcd (some lcd')
      = [(u8 (u8 x0 : Int), u8 ((u8 y0 : Int) + (u8 radius : Nat))),
          (u8 (u8 x0 : Int), u8 ((u8 y0 : Int) - (u8 radius : Nat))),
          (u8 ((u8 x0 : Int) + (u8 radius : Nat)), u8 (u8 y0 : Int)),
          (u8 ((u8 x0 : Int) - (u8 radius : Nat)), u8 (u8 y0 : Int))]
        ++ new.map (fun p => (p.1, p.2.1)) := by
    simp only [plotted, newPixels_append lcd lcd' _ hnew, List.map_cons, List.cons_append,
      List.nil_append]
  rw [hp]
  exact closed8_append _ _ _ _ (closed8_extremal _ _ _) hcl

/-! ## Evaluations at the inputs where the rasterizer leaves the reference: claims C11, C14,
C15 and C17 -/

set_option maxRecDepth 100000 in
/-- C11 at the input `(x0, y0, w, h) = (0, 0, 2, 2)`: `fill_rectangle` followed by
`draw_rectangle` returns, the pixel `(1, 0)` lies in the bounding box and inside the panel,
and no `set_pixel` call is made at `(1, 0)`. -/
theorem fill_then_draw_misses_pixel :
    (0 + 2 + 1 ≤ 131 ∧ 0 + 2 ≤ 131) ∧ (0 ≤ 1 ∧ 1 ≤ 0 + 2 ∧ 0 ≤ 0 ∧ 0 ≤ 0 + 2) ∧
    plotted (emptyLCD sampleHeader.TYPE_PHILIPS)
        (fill_then_draw_rectangle sampleHeader (emptyLCD sampleHeader.TYPE_PHILIPS) 0 0 2 2 7)
      = [(0, 1), (1, 2), (0, 0), (1, 1), (2, 2), (0, 2), (1, 3), (2, 4), (0, 1), (2, 1)] ∧
    (1, 0) ∉ plotted (emptyLCD sampleHeader.TYPE_PHILIPS)
        (fill_then_draw_rectangle sampleHeader (emptyLCD sampleHeader.TYPE_PHILIPS)
          0 0 2 2 7) := by
  decide

set_option maxRecDepth 100000 in
/-- C14 at the input `draw_line(0, 0, 10, 0, 7)`: the code plots the diagonal `(k, k)`,
`k = 0..9`, the signed Bresenham reference plots the row `(k, 0)`, `k = 0..9`; the two
sequences differ and the plotted pixel `(1, 1)` is off the row `y = y0`. -/
theorem draw_line_leaves_reference :
    asInts (plotted (emptyLCD sampleHeader.TYPE_PHILIPS)
        (lcd_draw_br_line sampleHeader (emptyLCD sampleHeader.TYPE_PHILIPS) 0 0 10 0 7))
      = [(0, 0), (1, 1), (2, 2), (3, 3), (4, 4), (5, 5), (6, 6), (7, 7), (8, 8), (9, 9)] ∧
    bresenham_ref 0 0 10 0
      = some [(0, 0), (1, 0), (2, 0), (3, 0), (4, 0), (5, 0), (6, 0), (7, 0), (8, 0), (9, 0)] ∧
    some (asInts (plotted (emptyLCD sampleHeader.TYPE_PHILIPS)
        (lcd_draw_br_line sampleHeader (emptyLCD sampleHeader.TYPE_PHILIPS) 0 0 10 0 7)))
      ≠ bresenham_ref 0 0 10 0 ∧
    (1, 1) ∈ plotted (emptyLCD sampleHeader.TYPE_PHILIPS)
        (lcd_draw_br_line sampleHeader (emptyLCD sampleHeader.TYPE_PHILIPS) 0 0 10 0 7) := by
  decide

set_option maxRecDepth 100000 in
/-- C15 at the input `draw_circle(30, 40, 2, 7)`: the code decrements `y` in the first
iteration and plots `(31, 41)` fifth, the signed midpoint reference (where `f = -1 < 0`)
keeps `y` and plots `(31, 42)` fifth; the two sequences differ. -/
theorem draw_circle_leaves_reference :
    asInts (plotted (emptyLCD sampleHeader.TYPE_PHILIPS)
        (lcd_draw_circle sampleHeader (emptyLCD sampleHeader.TYPE_PHILIPS) 30 40 2 7))
      = [(30, 42), (30, 38), (32, 40), (28, 40), (31, 41), (29, 41), (31, 39), (29, 39),
          (31, 41), (29, 41), (31, 39), (29, 39)] ∧
    midpoint_ref 30 40 2
      = some [(30, 42), (30, 38), (32, 40), (28, 40), (31, 42), (29, 42), (31, 38), (29, 38),
          (32, 41), (28, 41), (32, 39), (28, 39), (32, 41), (28, 41), (32, 39), (28, 39),
          (31, 42), (29, 42), (31, 38), (29, 38)] ∧
    some (asInts (plotted (emptyLCD sampleHeader.TYPE_PHILIPS)
        (lcd_draw_circle sampleHeader (emptyLCD sampleHeader.TYPE_PHILIPS) 30 40 2 7)))
      ≠ midpoint_ref 30 40 2 := by
  decide

set_option maxRecDepth 100000 in
/-- C17 at the input `fill_rectangle(0, 0, 2, 2, 7)`: the single interior row is `y = 1`,
but the calls made are `set_pixel(0, 1)` and `set_pixel(1, 2)`; the second lies on the bottom
edge `y = y0 + h`, outside `y0 + 1 <= y <= y0 + h - 1`. -/
theorem fill_rectangle_leaves_rows :
    (0 + 2 ≤ 131 ∧ 0 + 2 ≤ 131) ∧
    plotted (emptyLCD sampleHeader.TYPE_PHILIPS)
        (lcd_fill_rectangle sampleHeader (emptyLCD sampleHeader.TYPE_PHILIPS) 0 0 2 2 7)
      = [(0, 1), (1, 2)] ∧
    ¬ (∀ p ∈ plotted (emptyLCD sampleHeader.TYPE_PHILIPS)
        (lcd_fill_rectangle sampleHeader (emptyLCD sampleHeader.TYPE_PHILIPS) 0 0 2 2 7),
        0 + 1 ≤ p.2 ∧ p.2 ≤ 0 + 2 - 1 ∧ 0 ≤ p.1 ∧ p.1 ≤ 0 + 2) := by
  decide

/-! ## Further instances at concrete inputs -/

/-- Flushing the empty buffer of a fresh driver. -/
theorem flush_empty_writes_empty_block_witness :
    (emptyLCD sampleHeader.TYPE_PHILIPS).buffer_pos = 0 ∧
    (flush (emptyLCD sampleHeader.TYPE_PHILIPS)).spi
      = (emptyLCD sampleHeader.TYPE_PHILIPS).spi ++ [[]] ∧
    (flush (flush (emptyLCD sampleHeader.TYPE_PHILIPS))).spi
      = (emptyLCD sampleHeader.TYPE_PHILIPS).spi ++ [[], []] :=
  ⟨rfl, (flush_empty_writes_empty_block (emptyLCD sampleHeader.TYPE_PHILIPS) rfl).1,
    (flush_empty_writes_empty_block (emptyLCD sampleHeader.TYPE_PHILIPS) rfl).2.2.2.2.2.1⟩

/-- The pixel `(5, 10)` with colour `0xABC` on the sample Epson driver: the three bytes are
`0xAB, 0xCA, 0xBC`. -/
theorem epson_packing_two_copies_witness :
    (emptyLCD sampleHeader.TYPE_EPSON).type = sampleHeader.TYPE_EPSON ∧
    (emptyLCD sampleHeader.TYPE_EPSON).buffer_pos = 0 ∧
    (5 : Nat) < 256 ∧ (10 : Nat) < 256 ∧ (0xABC : Nat) < 4096 ∧
    (lcd_set_pixel sampleHeader (emptyLCD sampleHeader.TYPE_EPSON)
        (5 : Nat) (10 : Nat) (0xABC : Nat)).spi.flatten
      = (emptyLCD sampleHeader.TYPE_EPSON).spi.flatten ++
        [u8 sampleHeader.PASET, 5 + 256, u8 sampleHeader.ENDPAGE + 256, u8 sampleHeader.CASET,
          10 + 256, u8 sampleHeader.ENDCOL + 256, u8 sampleHeader.RAMWR,
          0xABC / 16 + 256, (0xABC % 16 * 16 + 0xABC / 256) + 256, 0xABC % 256 + 256] ∧
    (0xABC / 16 = 0xAB ∧ 0xABC % 16 * 16 + 0xABC / 256 = 0xCA ∧ 0xABC % 256 = 0xBC) :=
  ⟨rfl, rfl, by decide, by decide, by decide,
    (epson_packing_two_copies sampleHeader (emptyLCD sampleHeader.TYPE_EPSON) 5 10 0xABC
      rfl rfl (by decide) (by decide) (by decide)).1,
    by decide⟩

/-- A circle of radius 2 at `(30, 40)`: `(30, 42)` is plotted, and so are its reflections
`(30, 38)` and `(32, 40)`. -/
theorem draw_circle_eightfold_witness :
    ∃ lcd', lcd_draw_circle sampleHeader (emptyLCD sampleHeader.TYPE_PHILIPS) 30 40 2 7
        = some lcd' ∧
      (30, 42) ∈ plotted (emptyLCD sampleHeader.TYPE_PHILIPS) (some lcd') ∧
      (30, 38) ∈ plotted (emptyLCD sampleHeader.TYPE_PHILIPS) (some lcd') ∧
      (32, 40) ∈ plotted (emptyLCD sampleHeader.TYPE_PHILIPS) (some lcd') := by
  obtain ⟨lcd', h, hall⟩ :=
    draw_circle_eightfold sampleHeader (emptyLCD sampleHeader.TYPE_PHILIPS) 30 40 2 7
  have hp : (30, 42) ∈ plotted (emptyLCD sampleHeader.TYPE_PHILIPS) (some lcd') := by
    rw [← h]; decide
  exact ⟨lcd', h, hp, (hall 0 2 hp).2.1, (hall 0 2 hp).2.2⟩

/-- The reverse horizontal line from `(10, 0)` to `(0, 0)`: 246 calls, none at `(0, 0)`. -/
theorem draw_line_walk_witness :
    ∃ lcd', lcd_draw_br_line sampleHeader (emptyLCD sampleHeader.TYPE_PHILIPS) 10 0 0 0 7
        = some lcd' ∧
      (newPixels (emptyLCD sampleHeader.TYPE_PHILIPS) lcd').length = 246 ∧
      (0, 0) ∉ plotted (emptyLCD sampleHeader.TYPE_PHILIPS) (some lcd') := by
  obtain ⟨lcd', h, hlen, _, _, hend⟩ :=
    draw_line_walk sampleHeader (emptyLCD sampleHeader.TYPE_PHILIPS) 10 0 0 0 7
  exact ⟨lcd', h, hlen, hend⟩

/-- Rows starting at `y0 = 200`: with height 56 the loop never returns, with height 55 it
does. -/
theorem row_loop_terminates_iff_witness :
    256 ≤ u8 200 + u8 56 ∧ u8 200 + u8 55 ≤ 255 ∧
    lcd_fill_rectangle sampleHeader (emptyLCD sampleHeader.TYPE_PHILIPS) 0 200 2 56 7 = none ∧
    (lcd_fill_rectangle sampleHeader (emptyLCD sampleHeader.TYPE_PHILIPS) 0 200 2 55 7).isSome
      = true :=
  ⟨by decide, by decide,
    ((row_loop_terminates_iff sampleHeader (emptyLCD sampleHeader.TYPE_PHILIPS) 0 200 2 56 7).1
      (by decide)).2.2.1,
    ((row_loop_terminates_iff sampleHeader (emptyLCD sampleHeader.TYPE_PHILIPS) 0 200 2 55 7).2
      (by decide)).2.1⟩

end Pinokia
